import Mathlib

/-!
# Tft.c : WiFi provisioning UI on a touch display

A shallow embedding of `src/Tft.c`.  The globals of the sketch become the
fields of `State`; every call into a driver (display, radio, touch
controller, preferences) is appended to `State.trace` in program order, so
that "what was drawn", "was a scan requested" and "was a connection attempt
started" are observable facts of a run.  Values read from the drivers are
inputs of the step functions.
-/

namespace Tft

/-! ## Data model -/

/-- The `enum State` of the sketch (line 21). -/
inductive AppState
  | SCANNING
  | LIST
  | KEYPAD
  deriving DecidableEq

/-- The display colours used by the sketch (`TFT_BLACK`, `TFT_WHITE`, ...). -/
inductive Color
  | BLACK
  | WHITE
  | CYAN
  | GREEN
  | RED
  deriving DecidableEq

/-- One call into a driver, with its arguments. -/
inductive Event
  | fillScreen (c : Color)
  | setTextColor (fg bg : Color)
  | drawString (s : String) (x y font : Int)
  | drawCentreString (s : String) (x y font : Int)
  | drawRect (x y w h : Int) (c : Color)
  | drawRoundRect (x y w h r : Int) (c : Color)
  | fillRect (x y w h : Int) (c : Color)
  | scanNetworks (async : Bool)
  | getPoint
  | wifiBegin (ssid pass : String)
  | putString (key value : String)
  deriving DecidableEq

/-- The global variables of the sketch (lines 21-29) and the driver-call trace. -/
structure State where
  currentState : AppState
  selectedSSID : String
  passwordBuffer : String
  networkCount : Int
  scanStarted : Bool
  touchLocked : Bool
  trace : List Event
  deriving DecidableEq

/-- What the radio and the clock do during one call of `connectToWifi`:
`t0` is the value of `millis()` when `startTime` is read, `radio k` tells whether
the `k`-th call of `WiFi.status()` returns `WL_CONNECTED`, and `adv k` is the
number of milliseconds by which the clock advances during the `k`-th `delay(10)`. -/
structure ConnEnv where
  t0 : Nat
  radio : Nat → Bool
  adv : Nat → Nat

/-- Everything one iteration of `loop` reads from the outside: the result of
`WiFi.scanComplete()`, the two readings of `touch.touched()` (lines 85 and 102),
the raw point of `touch.getPoint()`, the scan results `WiFi.SSID(i)` and the
behaviour of radio and clock should a connection attempt start. -/
structure LoopInput where
  scanComplete : Int
  touched1 : Bool
  rawX : Int
  rawY : Int
  touched2 : Bool
  ssid : Nat → String
  conn : ConnEnv

/-- Append driver calls to the trace. -/
def emit (s : State) (es : List Event) : State :=
  { s with trace := s.trace ++ es }

/-! ## Operations -/

/-- Modelled from the spec: the Arduino library function `map`, which is not
part of the sketch: `(x - in_min) * (out_max - out_min) / (in_max - in_min) + out_min`
with truncating integer division. -/
def map (x in_min in_max out_min out_max : Int) : Int :=
  Int.tdiv ((x - in_min) * (out_max - out_min)) (in_max - in_min) + out_min

/-- The function `startScan` (lines 110-113). -/
def startScan (s : State) : State :=
  { s with currentState := AppState.SCANNING, scanStarted := false }

/-- The `for` loop of `drawWifiList` (lines 124-130), from index `i` on; the
loop test `i < 5` bounds it, `fuel` counts the iterations left. -/
def drawWifiListLoop (ssid : Nat → String) (networkCount : Int) : Nat → Nat → List Event
  | 0, _ => []
  | fuel + 1, i =>
    if (i : Int) < networkCount ∧ (i : Int) < 5 then
      let yPos : Int := 35 + (i : Int) * 40
      [Event.drawRect 5 yPos 310 35 Color.WHITE, Event.drawString (ssid i) 15 (yPos + 10) 2]
        ++ drawWifiListLoop ssid networkCount fuel (i + 1)
    else []

/-- The function `drawWifiList` (lines 118-131). -/
def drawWifiList (ssid : Nat → String) (s : State) : State :=
  emit s ([Event.fillScreen Color.BLACK, Event.setTextColor Color.CYAN Color.BLACK,
      Event.drawString "Select WiFi" 10 5 2]
    ++ drawWifiListLoop ssid s.networkCount 5 0)

/-- The table `keys` of `drawKeypad` (lines 166-171). -/
def drawKeypad.keys : List (List String) :=
  [["3", "2", "1"], ["6", "5", "4"], ["9", "8", "7"], ["OK", "0", "CLR"]]

/-- The table `keys` of `handleKeypadTouch` (lines 190-195). -/
def handleKeypadTouch.keys : List (List String) :=
  [["1", "2", "3"], ["4", "5", "6"], ["7", "8", "9"], ["CLR", "0", "OK"]]

/-- The entry `keys[r][c]` of a key table. -/
def keyAt (keys : List (List String)) (r c : Nat) : String :=
  (keys.getD r []).getD c ""

/-- The cells `(r, c)` in the order in which `for r in 0..3, for c in 0..2` visits them. -/
def cells : List (Nat × Nat) :=
  (List.range 4).flatMap (fun r => (List.range 3).map (fun c => (r, c)))

/-- The body of the nested loop of `drawKeypad` (lines 176-180) for one cell. -/
def drawKeypadCell (rc : Nat × Nat) : List Event :=
  let x : Int := 20 + (rc.2 : Int) * 95
  let y : Int := 65 + (rc.1 : Int) * 42
  [Event.drawRoundRect x y 85 38 5 Color.WHITE,
   Event.drawCentreString (keyAt drawKeypad.keys rc.1 rc.2) (x + 42) (y + 12) 2]

/-- The function `drawKeypad` (lines 161-183). -/
def drawKeypad (s : State) : State :=
  emit s ([Event.fillScreen Color.BLACK, Event.drawRect 10 25 300 30 Color.WHITE]
    ++ cells.flatMap drawKeypadCell)

/-- The hit test of `handleListTouch` for row `i` (lines 140-146). -/
def inRow (x y : Int) (i : Nat) : Prop :=
  x > 5 ∧ x < 5 + 310 ∧ y > 35 + (i : Int) * 40 ∧ y < 35 + (i : Int) * 40 + 35

instance (x y : Int) (i : Nat) : Decidable (inRow x y i) := by
  unfold inRow; infer_instance

/-- The `for` loop of `handleListTouch` (lines 138-155), from index `i` on, with
its early `return`. -/
def handleListTouchLoop (ssid : Nat → String) (x y : Int) : Nat → Nat → State → State
  | 0, _, s => s
  | fuel + 1, i, s =>
    if (i : Int) < s.networkCount ∧ (i : Int) < 5 then
      if inRow x y i then
        let s1 := { s with selectedSSID := ssid i, passwordBuffer := "" }
        let s2 := drawKeypad s1
        { s2 with currentState := AppState.KEYPAD }
      else handleListTouchLoop ssid x y fuel (i + 1) s
    else s

/-- The function `handleListTouch` (lines 136-156). -/
def handleListTouch (ssid : Nat → String) (x y : Int) (s : State) : State :=
  handleListTouchLoop ssid x y 5 0 s

/-- The wait loop of `connectToWifi` (lines 240-243): `i` body runs have been
made and the 32-bit clock shows `now`; `start` is `startTime`.  Each loop test reads
the radio status once and, when it is not connected, the clock; the clock advances
during `delay(10)` only.  The result is the number of body runs and the clock at exit;
`none` when `fuel` loop tests were not enough. -/
def waitLoop (env : ConnEnv) (start : Nat) : Nat → Nat → Nat → Option (Nat × Nat)
  | 0, _, _ => none
  | fuel + 1, i, now =>
    if env.radio i = false ∧ (now + 2 ^ 32 - start) % 2 ^ 32 < 10000 then
      waitLoop env start fuel (i + 1) ((now + env.adv i) % 2 ^ 32)
    else some (i, now)

/-- The function `connectToWifi` (lines 231-261).  The `delay(1500)` of the failure
branch only lets time pass. -/
def connectToWifi (fuel : Nat) (env : ConnEnv) (s p : String) (st : State) : Option State :=
  let st1 := emit st [Event.fillScreen Color.BLACK,
    Event.drawCentreString "Connecting..." 160 110 2, Event.wifiBegin s p]
  match waitLoop env (env.t0 % 2 ^ 32) fuel 0 (env.t0 % 2 ^ 32) with
  | none => none
  | some (i, _) =>
    if env.radio (i + 1) = true then
      some (emit st1 [Event.fillScreen Color.GREEN,
        Event.drawCentreString "CONNECTED!" 160 110 2,
        Event.putString "ssid" s, Event.putString "pass" p])
    else
      some (startScan (emit st1 [Event.fillScreen Color.RED,
        Event.drawCentreString "FAILED!" 160 110 2]))

/-- The hit test of `handleKeypadTouch` for the cell in row `r`, column `c`
(lines 200-206). -/
def inKey (x y : Int) (r c : Nat) : Prop :=
  x > 20 + (c : Int) * 95 ∧ x < 20 + (c : Int) * 95 + 85 ∧
    y > 65 + (r : Int) * 42 ∧ y < 65 + (r : Int) * 42 + 38

instance (x y : Int) (r c : Nat) : Decidable (inKey x y r c) := by
  unfold inKey; infer_instance

/-- The redraw of the password field that ends the body of the keypad loop
(lines 221-222). -/
def redrawBuffer (s : State) : State :=
  emit s [Event.fillRect 12 27 296 26 Color.BLACK,
    Event.drawCentreString s.passwordBuffer 160 32 2]

/-- The nested loop of `handleKeypadTouch` (lines 197-225) over the cells still to
visit; the `return` of the `OK` branch leaves both loops. -/
def handleKeypadTouchLoop (fuel : Nat) (env : ConnEnv) (x y : Int) :
    List (Nat × Nat) → State → Option State
  | [], s => some s
  | rc :: rest, s =>
    if inKey x y rc.1 rc.2 then
      let val := keyAt handleKeypadTouch.keys rc.1 rc.2
      if val = "CLR" then
        handleKeypadTouchLoop fuel env x y rest (redrawBuffer { s with passwordBuffer := "" })
      else if val = "OK" then
        connectToWifi fuel env s.selectedSSID s.passwordBuffer s
      else
        handleKeypadTouchLoop fuel env x y rest
          (redrawBuffer { s with passwordBuffer := s.passwordBuffer ++ val })
    else handleKeypadTouchLoop fuel env x y rest s

/-- The function `handleKeypadTouch` (lines 188-226). -/
def handleKeypadTouch (fuel : Nat) (env : ConnEnv) (x y : Int) (s : State) : Option State :=
  handleKeypadTouchLoop fuel env x y cells s

/-- The request block of the scan branch (lines 67-72). -/
def requestScan (s : State) : State :=
  if s.scanStarted = false then
    { emit s [Event.fillScreen Color.BLACK,
        Event.drawCentreString "Scanning WiFi..." 160 110 2,
        Event.scanNetworks true] with scanStarted := true }
  else s

/-- The scan block of `loop` (lines 64-82). -/
def scanPhase (inp : LoopInput) (s : State) : State :=
  if s.currentState = AppState.SCANNING then
    let s1 := requestScan s
    let status := inp.scanComplete
    if status ≥ 0 then
      let s2 := { s1 with networkCount := status }
      let s3 := drawWifiList inp.ssid s2
      { s3 with currentState := AppState.LIST, scanStarted := false }
    else s1
  else s

/-- The head of the dispatch branch (lines 87-89): set the latch, read the point. -/
def latch (s : State) : State :=
  emit { s with touchLocked := true } [Event.getPoint]

/-- The dispatch branch of `loop` (lines 85-100). -/
def dispatch (fuel : Nat) (inp : LoopInput) (s : State) : Option State :=
  if inp.touched1 = true ∧ s.touchLocked = false then
    let s1 := latch s
    let x := map inp.rawX 421 3798 0 320
    let y := map inp.rawY 3626 362 0 240
    if s1.currentState = AppState.LIST then
      some (handleListTouch inp.ssid x y s1)
    else if s1.currentState = AppState.KEYPAD then
      handleKeypadTouch fuel inp.conn x y s1
    else some s1
  else some s

/-- The release of the latch that ends `loop` (lines 102-104). -/
def unlock (inp : LoopInput) (s : State) : State :=
  if inp.touched2 = false then { s with touchLocked := false } else s

/-- The touch block of `loop` (lines 84-104). -/
def touchPhase (fuel : Nat) (inp : LoopInput) (s : State) : Option State :=
  (dispatch fuel inp s).map (unlock inp)

/-- The function `loop` (lines 62-105); `fuel` bounds the loop tests of a
connection attempt made in this iteration. -/
def loop (fuel : Nat) (inp : LoopInput) (s : State) : Option State :=
  touchPhase fuel inp (scanPhase inp s)

/-- Consecutive iterations of `loop`, one per input. -/
def runLoop (fuel : Nat) : List LoopInput → State → Option State
  | [], s => some s
  | inp :: rest, s =>
    match loop fuel inp s with
    | none => none
    | some s1 => runLoop fuel rest s1

/-- The state in which `setup` leaves the globals (lines 22-29 and 56). -/
def initial : State :=
  { currentState := AppState.SCANNING, selectedSSID := "", passwordBuffer := "",
    networkCount := 0, scanStarted := false, touchLocked := false, trace := [] }

/-! ## Observations on a trace -/

/-- Tells whether an event is a call of `touch.getPoint()`. -/
def isGetPoint : Event → Bool
  | Event.getPoint => true
  | _ => false

/-- Tells whether an event is a call of `WiFi.scanNetworks`. -/
def isScanRequest : Event → Bool
  | Event.scanNetworks _ => true
  | _ => false

/-- Tells whether an event is a call into the display driver. -/
def isDraw : Event → Bool
  | Event.fillScreen _ => true
  | Event.setTextColor _ _ => true
  | Event.drawString _ _ _ _ => true
  | Event.drawCentreString _ _ _ _ => true
  | Event.drawRect _ _ _ _ _ => true
  | Event.drawRoundRect _ _ _ _ _ _ => true
  | Event.fillRect _ _ _ _ _ => true
  | _ => false

/-- The arguments of a `WiFi.begin` call. -/
def beginArgs : Event → Option (String × String)
  | Event.wifiBegin s p => some (s, p)
  | _ => none

/-- The arguments of a `prefs.putString` call. -/
def putArgs : Event → Option (String × String)
  | Event.putString k v => some (k, v)
  | _ => none

/-- The position and size of a `drawRect` call. -/
def rectArgs : Event → Option (Int × Int × Int × Int)
  | Event.drawRect x y w h _ => some (x, y, w, h)
  | _ => none

/-- How many times the dispatch branch of `loop` has run: it is the only caller
of `touch.getPoint()`. -/
def dispatches (tr : List Event) : Nat :=
  tr.countP isGetPoint

/-- How many scan requests have been issued. -/
def scanRequests (tr : List Event) : Nat :=
  tr.countP isScanRequest

/-- The display calls of a trace, in order. -/
def drawn (tr : List Event) : List Event :=
  tr.filter isDraw

/-- The connection attempts of a trace: the `(ssid, password)` pairs given to
`WiFi.begin`, in order. -/
def connectAttempts (tr : List Event) : List (String × String) :=
  tr.filterMap beginArgs

/-- The writes to the persistent store, in order. -/
def storeWrites (tr : List Event) : List (String × String) :=
  tr.filterMap putArgs

/-- The rectangles drawn with `drawRect`, in order. -/
def rects (tr : List Event) : List (Int × Int × Int × Int) :=
  tr.filterMap rectArgs

/-- The point at which a trace draws the centred string `label` first. -/
def labelPos (label : String) : List Event → Option (Int × Int)
  | [] => none
  | Event.drawCentreString s x y _ :: rest =>
    if s = label then some (x, y) else labelPos label rest
  | _ :: rest => labelPos label rest

/-! ## Auxiliary notions used in the statements -/

/-- The elapsed time `millis() - startTime` in 32-bit unsigned arithmetic. -/
def elapsed (start now : Nat) : Nat :=
  (now + 2 ^ 32 - start) % 2 ^ 32

/-- Every `delay(10)` lets the clock advance by at least 10 ms and by at most
`2 ^ 32 - 10000` ms. -/
def ClockOK (env : ConnEnv) : Prop :=
  ∀ k, 10 ≤ env.adv k ∧ env.adv k ≤ 2 ^ 32 - 10000

/-- A clock whose advances wrap the 32-bit counter (10 ms, then `2 ^ 32 - 10` ms,
and so on), with a radio that never connects. -/
def wrapEnv : ConnEnv :=
  { t0 := 0, radio := fun _ => false,
    adv := fun k => if k % 2 = 0 then 10 else 2 ^ 32 - 10 }

/-- A clock that advances by exactly 10 ms per `delay(10)`, with a radio that never
connects. -/
def deadEnv : ConnEnv :=
  { t0 := 5, radio := fun _ => false, adv := fun _ => 10 }

/-- A clock that advances by exactly 10 ms per `delay(10)`, with a radio that reports
connected from its third reading on. -/
def liveEnv : ConnEnv :=
  { t0 := 5, radio := fun k => decide (3 ≤ k), adv := fun _ => 10 }

/-- What the body of the keypad loop does with the key `val` (lines 208-222). -/
def pressKey (fuel : Nat) (env : ConnEnv) (val : String) (s : State) : Option State :=
  if val = "CLR" then some (redrawBuffer { s with passwordBuffer := "" })
  else if val = "OK" then connectToWifi fuel env s.selectedSSID s.passwordBuffer s
  else some (redrawBuffer { s with passwordBuffer := s.passwordBuffer ++ val })

/-- The state that `handleListTouch` produces when row `i` is hit (lines 148-152). -/
def selectRow (ssid : Nat → String) (i : Nat) (s : State) : State :=
  { drawKeypad { s with selectedSSID := ssid i, passwordBuffer := "" } with
    currentState := AppState.KEYPAD }

/-- A sequence of calls of `handleKeypadTouch`, one per touch point. -/
def tapAll (fuel : Nat) (env : ConnEnv) : List (Int × Int) → State → Option State
  | [], s => some s
  | t :: rest, s =>
    match handleKeypadTouch fuel env t.1 t.2 s with
    | none => none
    | some s1 => tapAll fuel env rest s1

/-- The Keypad state with the network "Cafe" selected and an empty buffer. -/
def cafe : State :=
  { initial with currentState := AppState.KEYPAD, selectedSSID := "Cafe" }

/-- A loop input without contact and with the scan still running. -/
def idle : LoopInput :=
  { scanComplete := -1, touched1 := false, rawX := 0, rawY := 0, touched2 := false,
    ssid := fun _ => "", conn := deadEnv }

/-- A loop input with contact at the raw point `(rx, ry)`. -/
def press (rx ry : Int) (env : ConnEnv) : LoopInput :=
  { scanComplete := -1, touched1 := true, rawX := rx, rawY := ry, touched2 := true,
    ssid := fun _ => "", conn := env }

/-- The touch `(x, y)` lies strictly inside the rectangle of a digit key: a key
that the table of `handleKeypadTouch` names `d`, different from "CLR" and "OK". -/
def digitTap (x y : Int) (d : String) : Prop :=
  ∃ r c : Nat, r < 4 ∧ c < 3 ∧ inKey x y r c ∧
    keyAt handleKeypadTouch.keys r c = d ∧ d ≠ "CLR" ∧ d ≠ "OK"

/-- The touch `(x, y)` lies strictly inside the rectangle of the key that the table
of `handleKeypadTouch` names "CLR". -/
def clrTap (x y : Int) : Prop :=
  ∃ r c : Nat, r < 4 ∧ c < 3 ∧ inKey x y r c ∧ keyAt handleKeypadTouch.keys r c = "CLR"

/-- The two display calls that `drawWifiList` makes for row `i` (lines 126-129). -/
def rowEvents (ssid : Nat → String) (i : Nat) : List Event :=
  [Event.drawRect 5 (35 + (i : Int) * 40) 310 35 Color.WHITE,
   Event.drawString (ssid i) 15 (35 + (i : Int) * 40 + 10) 2]

/-- The scan result of the end-to-end scenario: "Home" and "Cafe". -/
def homeCafe : Nat → String
  | 0 => "Home"
  | 1 => "Cafe"
  | _ => ""

/-- The value of `startTime` in a connection attempt: the 32-bit clock at entry. -/
def startTime (env : ConnEnv) : Nat :=
  env.t0 % 2 ^ 32

/-- The state in which the connected branch of `connectToWifi(s, p)` ends
(lines 233-236 and 247-251). -/
def connectedState (s p : String) (st : State) : State :=
  emit (emit st [Event.fillScreen Color.BLACK,
      Event.drawCentreString "Connecting..." 160 110 2, Event.wifiBegin s p])
    [Event.fillScreen Color.GREEN, Event.drawCentreString "CONNECTED!" 160 110 2,
      Event.putString "ssid" s, Event.putString "pass" p]

/-- The state in which the other branch of `connectToWifi(s, p)` ends
(lines 233-236 and 255-259). -/
def failedState (s p : String) (st : State) : State :=
  startScan (emit (emit st [Event.fillScreen Color.BLACK,
      Event.drawCentreString "Connecting..." 160 110 2, Event.wifiBegin s p])
    [Event.fillScreen Color.RED, Event.drawCentreString "FAILED!" 160 110 2])

/-- The touch point that `loop` hands to the handlers (lines 92-93). -/
def touchPoint (inp : LoopInput) : Int × Int :=
  (map inp.rawX 421 3798 0 320, map inp.rawY 3626 362 0 240)

/-- The attempt `connectToWifi(s0.selectedSSID, s0.passwordBuffer)` made from the keypad
in state `s0` returned through its connected branch and left the state `s1`. -/
def Succeeded (fuel : Nat) (env : ConnEnv) (s0 s1 : State) : Prop :=
  s0.currentState = AppState.KEYPAD ∧
  ∃ i now, waitLoop env (startTime env) fuel 0 (startTime env) = some (i, now) ∧
    env.radio (i + 1) = true ∧
    connectToWifi fuel env s0.selectedSSID s0.passwordBuffer s0 = some s1

/-- The Keypad state with "Cafe" selected and "123" typed. -/
def cafe123 : State :=
  { cafe with passwordBuffer := "123" }

/-- The state after the attempt `("Cafe", "123")` has succeeded. -/
def afterSuccess : State :=
  connectedState "Cafe" "123" cafe123

/-- A clock that advances by 10000 ms per `delay(10)`, with a radio that never
connects. -/
def lostEnv : ConnEnv :=
  { t0 := 5, radio := fun _ => false, adv := fun _ => 10000 }

/-- Tells whether the point `(x, y)` is strictly inside none of the twelve key
rectangles. -/
def missesKeys (x y : Int) : Bool :=
  cells.all (fun rc => !decide (inKey x y rc.1 rc.2))

/-- Checks a run of `loop` from state `s`: in every iteration that reads contact while
the latch is open, the mapped touch point is strictly inside no key rectangle. -/
def quietRun (fuel : Nat) : List LoopInput → State → Bool
  | [], _ => true
  | inp :: rest, s =>
    (!(inp.touched1 && !s.touchLocked) ||
        missesKeys (map inp.rawX 421 3798 0 320) (map inp.rawY 3626 362 0 240)) &&
      (match loop fuel inp s with
        | none => true
        | some s1 => quietRun fuel rest s1)

/-- The state after the attempt `("Cafe", "123")` has succeeded with the latch set: the
finger that tapped "OK" has not been lifted. -/
def heldSuccess : State :=
  connectedState "Cafe" "123" { cafe123 with touchLocked := true }

/-! ## Coordinate mapping -/

theorem tdiv_of_pos (a d : Int) (hd : 0 < d) :
    a.tdiv d = if 0 ≤ a then a / d else -((-a) / d) := by
  split
  · exact Int.tdiv_eq_ediv (by assumption) (le_of_lt hd)
  · have h : a = -(-a) := by omega
    rw [h, Int.neg_tdiv, Int.tdiv_eq_ediv (by omega) (le_of_lt hd)]
    simp

theorem mapX_eq (rx : Int) :
    map rx 421 3798 0 320 =
      if 0 ≤ (rx - 421) * 320 then (rx - 421) * 320 / 3377
      else -((-((rx - 421) * 320)) / 3377) := by
  unfold map
  rw [show (3798 : Int) - 421 = 3377 by norm_num, show (320 : Int) - 0 = 320 by norm_num,
    tdiv_of_pos _ _ (by norm_num)]
  simp

theorem mapY_eq (ry : Int) :
    map ry 3626 362 0 240 =
      if 0 ≤ (ry - 3626) * 240 then -((ry - 3626) * 240 / 3264)
      else (-((ry - 3626) * 240)) / 3264 := by
  unfold map
  rw [show (362 : Int) - 3626 = -3264 by norm_num, show (240 : Int) - 0 = 240 by norm_num,
    Int.tdiv_neg, tdiv_of_pos _ _ (by norm_num)]
  split <;> simp

/-- For a 16-bit raw reading the products formed by `map` in `loop` fit a 32-bit
`long`, so the machine arithmetic agrees with the integers used here. -/
theorem map_products_fit (r : Int) (h1 : -32768 ≤ r) (h2 : r ≤ 65535) :
    -2 ^ 31 ≤ (r - 421) * (320 - 0) ∧ (r - 421) * (320 - 0) < 2 ^ 31 ∧
    -2 ^ 31 ≤ (r - 3626) * (240 - 0) ∧ (r - 3626) * (240 - 0) < 2 ^ 31 := by
  norm_num
  omega

/-- Claim C4: the x mapping `map(rx, 421, 3798, 0, 320)` sends 421 to 0 and 3798 to
320, is non-decreasing over the 16-bit raw range, maps `[421, 3798]` into `[0, 320]`
and is not clamped (4095 goes above 320, 0 goes below 0); the y mapping
`map(ry, 3626, 362, 0, 240)` sends 3626 to 0 and 362 to 240 and is non-increasing. -/
theorem map_calibration :
    map 421 421 3798 0 320 = 0 ∧ map 3798 421 3798 0 320 = 320 ∧
    (∀ a b : Int, -32768 ≤ a → a ≤ b → b ≤ 65535 →
      map a 421 3798 0 320 ≤ map b 421 3798 0 320) ∧
    (∀ rx : Int, 421 ≤ rx → rx ≤ 3798 →
      0 ≤ map rx 421 3798 0 320 ∧ map rx 421 3798 0 320 ≤ 320) ∧
    320 < map 4095 421 3798 0 320 ∧ map 0 421 3798 0 320 < 0 ∧
    map 3626 3626 362 0 240 = 0 ∧ map 362 3626 362 0 240 = 240 ∧
    (∀ a b : Int, -32768 ≤ a → a ≤ b → b ≤ 65535 →
      map b 3626 362 0 240 ≤ map a 3626 362 0 240) := by
  refine ⟨by decide, by decide, ?_, ?_, by decide, by decide, by decide, by decide, ?_⟩
  · intro a b _ hab _
    rw [mapX_eq, mapX_eq]
    split <;> split <;> omega
  · intro rx h1 h2
    rw [mapX_eq]
    split <;> omega
  · intro a b _ hab _
    rw [mapY_eq, mapY_eq]
    split <;> split <;> omega

/-! ## The wait loop of `connectToWifi` -/

theorem elapsed_advance (start now d : Nat) (hs : start < 2 ^ 32) (hn : now < 2 ^ 32)
    (he : elapsed start now < 10000) (hd : d ≤ 2 ^ 32 - 10000) :
    elapsed start ((now + d) % 2 ^ 32) = elapsed start now + d := by
  unfold elapsed at *
  norm_num at *
  omega

theorem waitLoop_mono (env : ConnEnv) (start : Nat) (r : Nat × Nat) (k : Nat) :
    ∀ fuel i now : Nat, waitLoop env start fuel i now = some r →
      waitLoop env start (fuel + k) i now = some r := by
  intro fuel
  induction fuel with
  | zero => intro i now h; simp [waitLoop] at h
  | succ fuel ih =>
    intro i now h
    rw [show fuel + 1 + k = (fuel + k) + 1 by omega, waitLoop]
    rw [waitLoop] at h
    split
    · rename_i hc
      rw [if_pos hc] at h
      exact ih _ _ h
    · rename_i hc
      rw [if_neg hc] at h
      exact h

theorem waitLoop_exits (env : ConnEnv) (start : Nat) (hs : start < 2 ^ 32) (hc : ClockOK env) :
    ∀ fuel i now : Nat, now < 2 ^ 32 → 10 * i ≤ elapsed start now → i ≤ 1000 →
      1001 ≤ fuel + i →
      ∃ j now', waitLoop env start fuel i now = some (j, now') ∧ i ≤ j ∧ j ≤ 1000 := by
  intro fuel
  induction fuel with
  | zero => intro i now _ _ h1 h2; omega
  | succ fuel ih =>
    intro i now hn he hi hf
    by_cases hcond : env.radio i = false ∧ (now + 2 ^ 32 - start) % 2 ^ 32 < 10000
    · have he' : elapsed start now < 10000 := hcond.2
      have hstep := elapsed_advance start now (env.adv i) hs hn he' (hc i).2
      have hlo := (hc i).1
      obtain ⟨j, now', h1, h2, h3⟩ :=
        ih (i + 1) ((now + env.adv i) % 2 ^ 32) (Nat.mod_lt _ (by norm_num))
          (by omega) (by omega) (by omega)
      refine ⟨j, now', ?_, by omega, h3⟩
      rw [waitLoop, if_pos hcond]
      exact h1
    · refine ⟨i, now, ?_, le_refl _, hi⟩
      rw [waitLoop, if_neg hcond]

theorem waitLoop_exact (env : ConnEnv) (start : Nat) (hs : start < 2 ^ 32)
    (hadv : ∀ k, env.adv k = 10) (hr : ∀ k, env.radio k = false) :
    ∀ fuel i now : Nat, now < 2 ^ 32 → elapsed start now = 10 * i → i ≤ 1000 →
      1001 ≤ fuel + i →
      ∃ now', waitLoop env start fuel i now = some (1000, now') ∧
        elapsed start now' = 10000 := by
  intro fuel
  induction fuel with
  | zero => intro i now _ _ h1 h2; omega
  | succ fuel ih =>
    intro i now hn he hi hf
    by_cases hlt : i < 1000
    · have hcond : env.radio i = false ∧ (now + 2 ^ 32 - start) % 2 ^ 32 < 10000 := by
        refine ⟨hr i, ?_⟩
        have : elapsed start now < 10000 := by omega
        exact this
      have hstep := elapsed_advance start now (env.adv i) hs hn (by omega)
        (by rw [hadv]; norm_num)
      rw [hadv] at hstep
      obtain ⟨now', h1, h2⟩ :=
        ih (i + 1) ((now + env.adv i) % 2 ^ 32) (Nat.mod_lt _ (by norm_num))
          (by rw [hadv]; omega) (by omega) (by omega)
      refine ⟨now', ?_, h2⟩
      rw [waitLoop, if_pos hcond]
      exact h1
    · have hi' : i = 1000 := by omega
      subst hi'
      have hcond : ¬ (env.radio 1000 = false ∧ (now + 2 ^ 32 - start) % 2 ^ 32 < 10000) := by
        intro h
        have : elapsed start now < 10000 := h.2
        omega
      refine ⟨now, ?_, by omega⟩
      rw [waitLoop, if_neg hcond]

theorem waitLoop_wrap (fuel : Nat) :
    ∀ i now : Nat, (i % 2 = 0 ∧ now = 0) ∨ (i % 2 = 1 ∧ now = 10) →
      waitLoop wrapEnv 0 fuel i now = none := by
  induction fuel with
  | zero => intro i now _; rfl
  | succ fuel ih =>
    intro i now h
    have hcond : wrapEnv.radio i = false ∧ (now + 2 ^ 32 - 0) % 2 ^ 32 < 10000 := by
      refine ⟨rfl, ?_⟩
      rcases h with ⟨_, h⟩ | ⟨_, h⟩ <;> subst h <;> norm_num
    rw [waitLoop, if_pos hcond]
    apply ih
    rcases h with ⟨hi, h⟩ | ⟨hi, h⟩
    · right
      subst h
      refine ⟨by omega, ?_⟩
      simp [wrapEnv, hi]
    · left
      subst h
      refine ⟨by omega, ?_⟩
      simp [wrapEnv, hi]

theorem start_lt (t : Nat) : t % 2 ^ 32 < 2 ^ 32 :=
  Nat.mod_lt _ (by norm_num)

theorem elapsed_self (t : Nat) : elapsed t t = 0 := by
  unfold elapsed
  simp

/-- Claim C7, as stated, fails: with a clock that advances by at least 10 ms on every
`delay(10)` but wraps the 32-bit counter (advances of 10 ms and `2 ^ 32 - 10` ms in
turn) and a radio that never connects, the wait loop exits for no number of loop tests. -/
theorem waitLoop_wrap_never_exits :
    (∀ k, 10 ≤ wrapEnv.adv k) ∧
    ∀ fuel, waitLoop wrapEnv (wrapEnv.t0 % 2 ^ 32) fuel 0 (wrapEnv.t0 % 2 ^ 32) = none := by
  constructor
  · intro k
    simp only [wrapEnv]
    split <;> norm_num
  · intro fuel
    exact waitLoop_wrap fuel 0 0 (Or.inl ⟨rfl, rfl⟩)

theorem waitLoop_returns (env : ConnEnv) (hc : ClockOK env) (fuel : Nat) (hf : 1001 ≤ fuel) :
    ∃ i now, waitLoop env (env.t0 % 2 ^ 32) fuel 0 (env.t0 % 2 ^ 32) = some (i, now) := by
  have hs := start_lt env.t0
  have h0 := elapsed_self (env.t0 % 2 ^ 32)
  obtain ⟨j, now', h1, _, _⟩ :=
    waitLoop_exits env _ hs hc fuel 0 (env.t0 % 2 ^ 32) hs (by omega) (by omega) (by omega)
  exact ⟨j, now', h1⟩

/-- Claim C7, amended: when every `delay(10)` advances the 32-bit clock by at least
10 ms and at most `2 ^ 32 - 10000` ms, the wait loop exits, whatever the radio reports,
after at most 1000 runs of its body (1001 loop tests suffice); and when every advance is
exactly 10 ms and the radio never reports connected, it exits after exactly 1000 runs with
an elapsed time of exactly 10000 ms. -/
theorem waitLoop_terminates (env : ConnEnv) (hc : ClockOK env) :
    ∃ i now, i ≤ 1000 ∧
      (∀ fuel, 1001 ≤ fuel →
        waitLoop env (env.t0 % 2 ^ 32) fuel 0 (env.t0 % 2 ^ 32) = some (i, now)) ∧
      ((∀ k, env.adv k = 10) → (∀ k, env.radio k = false) →
        i = 1000 ∧ elapsed (env.t0 % 2 ^ 32) now = 10000) := by
  have hs := start_lt env.t0
  have h0 := elapsed_self (env.t0 % 2 ^ 32)
  obtain ⟨j, now', h1, _, h3⟩ :=
    waitLoop_exits env _ hs hc 1001 0 (env.t0 % 2 ^ 32) hs (by omega) (by omega) (by omega)
  refine ⟨j, now', h3, ?_, ?_⟩
  · intro fuel hf
    have := waitLoop_mono env _ (j, now') (fuel - 1001) _ _ _ h1
    rwa [show 1001 + (fuel - 1001) = fuel by omega] at this
  · intro hadv hr
    obtain ⟨now2, h4, h5⟩ :=
      waitLoop_exact env _ hs hadv hr 1001 0 (env.t0 % 2 ^ 32) hs (by omega) (by omega)
        (by omega)
    rw [h1] at h4
    simp only [Option.some.injEq, Prod.mk.injEq] at h4
    obtain ⟨rfl, rfl⟩ := h4
    exact ⟨rfl, h5⟩

theorem deadEnv_clockOK : ClockOK deadEnv := by
  intro k
  simp only [deadEnv]
  norm_num

theorem waitLoop_terminates_witness :
    ClockOK deadEnv ∧
    ∃ i now, i ≤ 1000 ∧
      (∀ fuel, 1001 ≤ fuel →
        waitLoop deadEnv (deadEnv.t0 % 2 ^ 32) fuel 0 (deadEnv.t0 % 2 ^ 32) = some (i, now)) ∧
      ((∀ k, deadEnv.adv k = 10) → (∀ k, deadEnv.radio k = false) →
        i = 1000 ∧ elapsed (deadEnv.t0 % 2 ^ 32) now = 10000) :=
  ⟨deadEnv_clockOK, waitLoop_terminates deadEnv deadEnv_clockOK⟩

/-! ## The keypad -/

theorem inKey_unique (x y : Int) (r c r' c' : Nat) (h : inKey x y r c) (h' : inKey x y r' c') :
    r = r' ∧ c = c' := by
  unfold inKey at h h'
  omega

theorem mem_cells (r c : Nat) : (r, c) ∈ cells ↔ r < 4 ∧ c < 3 := by
  simp [cells, List.mem_flatMap, List.mem_map, List.mem_range]

theorem cells_nodup : cells.Nodup := by
  decide

theorem keypadLoop_miss (fuel : Nat) (env : ConnEnv) (x y : Int) (s : State) :
    ∀ l : List (Nat × Nat), (∀ rc ∈ l, ¬ inKey x y rc.1 rc.2) →
      handleKeypadTouchLoop fuel env x y l s = some s := by
  intro l
  induction l with
  | nil => intro _; rfl
  | cons rc rest ih =>
    intro h
    rw [handleKeypadTouchLoop, if_neg (h rc (List.mem_cons_self _ _))]
    exact ih (fun q hq => h q (List.mem_cons_of_mem _ hq))

theorem pressKey_loop (fuel : Nat) (env : ConnEnv) (x y : Int) (rc : Nat × Nat)
    (rest : List (Nat × Nat)) (s : State) (hin : inKey x y rc.1 rc.2)
    (hrest : ∀ q ∈ rest, ¬ inKey x y q.1 q.2) :
    handleKeypadTouchLoop fuel env x y (rc :: rest) s =
      pressKey fuel env (keyAt handleKeypadTouch.keys rc.1 rc.2) s := by
  rw [handleKeypadTouchLoop, if_pos hin]
  unfold pressKey
  simp only [keypadLoop_miss fuel env x y _ rest hrest]

theorem keypadLoop_hit (fuel : Nat) (env : ConnEnv) (x y : Int) (r c : Nat)
    (hin : inKey x y r c) (s : State) :
    ∀ l : List (Nat × Nat), l.Nodup → (r, c) ∈ l →
      handleKeypadTouchLoop fuel env x y l s =
        pressKey fuel env (keyAt handleKeypadTouch.keys r c) s := by
  intro l
  induction l with
  | nil => intro _ h; simp at h
  | cons rc rest ih =>
    intro hnd hmem
    rw [List.nodup_cons] at hnd
    by_cases hrc : rc = (r, c)
    · subst hrc
      have hrest : ∀ q ∈ rest, ¬ inKey x y q.1 q.2 := by
        intro q hq hq'
        have := inKey_unique x y r c q.1 q.2 hin hq'
        have hq2 : q = (r, c) := by
          cases q; simp only [Prod.mk.injEq]; exact ⟨this.1.symm, this.2.symm⟩
        rw [hq2] at hq
        exact hnd.1 hq
      exact pressKey_loop fuel env x y (r, c) rest s hin hrest
    · have hmiss : ¬ inKey x y rc.1 rc.2 := by
        intro h'
        have := inKey_unique x y r c rc.1 rc.2 hin h'
        apply hrc
        cases rc; simp only [Prod.mk.injEq]; exact ⟨this.1.symm, this.2.symm⟩
      rw [handleKeypadTouchLoop, if_neg hmiss]
      apply ih hnd.2
      rcases List.mem_cons.mp hmem with h | h
      · exact absurd h.symm hrc
      · exact h

/-- A touch strictly inside the cell `(r, c)` makes `handleKeypadTouch` run the loop
body for the key `keys[r][c]` of its own table, once. -/
theorem handleKeypadTouch_hit (fuel : Nat) (env : ConnEnv) (x y : Int) (r c : Nat)
    (hr : r < 4) (hc : c < 3) (hin : inKey x y r c) (s : State) :
    handleKeypadTouch fuel env x y s =
      pressKey fuel env (keyAt handleKeypadTouch.keys r c) s :=
  keypadLoop_hit fuel env x y r c hin s cells cells_nodup ((mem_cells r c).mpr ⟨hr, hc⟩)

/-- A touch outside all twelve cells leaves the state as it is. -/
theorem handleKeypadTouch_miss (fuel : Nat) (env : ConnEnv) (x y : Int) (s : State)
    (h : ∀ r c : Nat, r < 4 → c < 3 → ¬ inKey x y r c) :
    handleKeypadTouch fuel env x y s = some s := by
  apply keypadLoop_miss
  intro rc hrc
  cases rc with
  | mk r c =>
    have := (mem_cells r c).mp hrc
    exact h r c this.1 this.2

theorem handleKeypadTouch_cases (fuel : Nat) (env : ConnEnv) (x y : Int) (s : State) :
    handleKeypadTouch fuel env x y s = some s ∨
    ∃ r c, r < 4 ∧ c < 3 ∧ inKey x y r c ∧
      handleKeypadTouch fuel env x y s =
        pressKey fuel env (keyAt handleKeypadTouch.keys r c) s := by
  by_cases h : ∀ r c : Nat, r < 4 → c < 3 → ¬ inKey x y r c
  · exact Or.inl (handleKeypadTouch_miss fuel env x y s h)
  · right
    push_neg at h
    obtain ⟨r, c, hr, hc, hin⟩ := h
    exact ⟨r, c, hr, hc, hin, handleKeypadTouch_hit fuel env x y r c hr hc hin s⟩

theorem digitTap_step (fuel : Nat) (env : ConnEnv) (x y : Int) (d : String) (s : State)
    (h : digitTap x y d) :
    handleKeypadTouch fuel env x y s =
      some (redrawBuffer { s with passwordBuffer := s.passwordBuffer ++ d }) := by
  obtain ⟨r, c, hr, hc, hin, hk, h1, h2⟩ := h
  rw [handleKeypadTouch_hit fuel env x y r c hr hc hin s, hk]
  simp [pressKey, h1, h2]

theorem digitTap_length (x y : Int) (d : String) (h : digitTap x y d) : d.length = 1 := by
  obtain ⟨r, c, hr, hc, _, hk, h1, h2⟩ := h
  subst hk
  interval_cases r <;> interval_cases c <;>
    first
      | rfl
      | exact absurd rfl h1
      | exact absurd rfl h2

theorem connectAttempts_redraw (s : State) :
    connectAttempts (redrawBuffer s).trace = connectAttempts s.trace := by
  simp [redrawBuffer, emit, connectAttempts, List.filterMap_append, beginArgs]

theorem tapAll_digits (fuel : Nat) (env : ConnEnv) :
    ∀ (taps : List (Int × Int × String)) (s : State),
      (∀ t ∈ taps, digitTap t.1 t.2.1 t.2.2) →
      ∃ s1, tapAll fuel env (taps.map (fun t => (t.1, t.2.1))) s = some s1 ∧
        s1.passwordBuffer = taps.foldl (fun acc t => acc ++ t.2.2) s.passwordBuffer ∧
        s1.passwordBuffer.length = s.passwordBuffer.length + taps.length ∧
        s1.currentState = s.currentState ∧
        connectAttempts s1.trace = connectAttempts s.trace := by
  intro taps
  induction taps with
  | nil => intro s _; exact ⟨s, rfl, rfl, rfl, rfl, rfl⟩
  | cons t rest ih =>
    intro s h
    have ht := h t (List.mem_cons_self _ _)
    obtain ⟨s1, h1, h2, h3, h4, h5⟩ :=
      ih (redrawBuffer { s with passwordBuffer := s.passwordBuffer ++ t.2.2 })
        (fun q hq => h q (List.mem_cons_of_mem _ hq))
    refine ⟨s1, ?_, ?_, ?_, ?_, ?_⟩
    · simp only [List.map_cons, tapAll, digitTap_step fuel env t.1 t.2.1 t.2.2 s ht]
      exact h1
    · rw [h2]; rfl
    · rw [h3]
      have := digitTap_length _ _ _ ht
      simp only [redrawBuffer, emit, String.length_append, List.length_cons]
      omega
    · rw [h4]; rfl
    · rw [h5, connectAttempts_redraw]

/-- Claim C3: from an empty buffer, taps strictly inside digit keys (as named by the
table of `handleKeypadTouch`) leave the concatenation of the tapped digits in tap
order, one character per tap; a following tap strictly inside the CLR key empties the
buffer; `currentState` is unchanged and no connection attempt is started in either
case. -/
theorem digit_taps_then_clr (fuel : Nat) (env : ConnEnv) (s : State)
    (taps : List (Int × Int × String)) (cx cy : Int)
    (hbuf : s.passwordBuffer = "")
    (htaps : ∀ t ∈ taps, digitTap t.1 t.2.1 t.2.2) (hclr : clrTap cx cy) :
    ∃ s1 s2, tapAll fuel env (taps.map (fun t => (t.1, t.2.1))) s = some s1 ∧
      s1.passwordBuffer = String.join (taps.map (fun t => t.2.2)) ∧
      s1.passwordBuffer.length = taps.length ∧
      s1.currentState = s.currentState ∧
      connectAttempts s1.trace = connectAttempts s.trace ∧
      handleKeypadTouch fuel env cx cy s1 = some s2 ∧
      s2.passwordBuffer = "" ∧
      s2.currentState = s.currentState ∧
      connectAttempts s2.trace = connectAttempts s.trace := by
  obtain ⟨s1, h1, h2, h3, h4, h5⟩ := tapAll_digits fuel env taps s htaps
  obtain ⟨r, c, hr, hc, hin, hk⟩ := hclr
  refine ⟨s1, redrawBuffer { s1 with passwordBuffer := "" }, h1, ?_, ?_, h4, h5, ?_, rfl, h4,
    ?_⟩
  · rw [h2, hbuf, String.join, List.foldl_map]
  · rw [h3, hbuf]; simp
  · rw [handleKeypadTouch_hit fuel env cx cy r c hr hc hin s1, hk]
    simp [pressKey]
  · rw [connectAttempts_redraw]; exact h5

theorem digit_taps_then_clr_witness :
    ∃ s1 s2, tapAll 0 deadEnv [(62, 84), (157, 210), (252, 168)] cafe = some s1 ∧
      s1.passwordBuffer = "109" ∧
      s1.passwordBuffer.length = 3 ∧
      s1.currentState = AppState.KEYPAD ∧
      connectAttempts s1.trace = [] ∧
      handleKeypadTouch 0 deadEnv 62 210 s1 = some s2 ∧
      s2.passwordBuffer = "" ∧
      s2.currentState = AppState.KEYPAD ∧
      connectAttempts s2.trace = [] :=
  digit_taps_then_clr 0 deadEnv cafe [(62, 84, "1"), (157, 210, "0"), (252, 168, "9")] 62 210
    rfl
    (by
      intro t ht
      simp only [List.mem_cons, List.mem_singleton, List.not_mem_nil, or_false] at ht
      rcases ht with rfl | rfl | rfl
      · exact ⟨0, 0, by decide⟩
      · exact ⟨3, 1, by decide⟩
      · exact ⟨2, 2, by decide⟩)
    ⟨3, 0, by decide⟩

/-- Claim C1 fails on the code: `drawKeypad` labels the cells from a table whose rows are
the mirror image of the table of `handleKeypadTouch`.  The cell where "1" is drawn acts
as "3"; tapping the cells labelled "1", "2", "3" leaves "321" in the buffer, and tapping
the cell labelled "OK" then clears the buffer and starts no connection attempt. -/
theorem keypad_labels_mirrored :
    (∀ r, r < 4 → ∀ c, c < 3 →
      keyAt drawKeypad.keys r c = keyAt handleKeypadTouch.keys r (2 - c) ∧
      (c ≠ 1 → keyAt drawKeypad.keys r c ≠ keyAt handleKeypadTouch.keys r c)) ∧
    keyAt drawKeypad.keys 0 0 = "3" ∧ keyAt handleKeypadTouch.keys 0 0 = "1" ∧
    labelPos "1" (drawKeypad cafe).trace = some (252, 77) ∧ inKey 252 77 0 2 ∧
    labelPos "2" (drawKeypad cafe).trace = some (157, 77) ∧ inKey 157 77 0 1 ∧
    labelPos "3" (drawKeypad cafe).trace = some (62, 77) ∧ inKey 62 77 0 0 ∧
    labelPos "OK" (drawKeypad cafe).trace = some (62, 203) ∧ inKey 62 203 3 0 ∧
    (handleKeypadTouch 1001 liveEnv 252 77 cafe).map (fun s => s.passwordBuffer) = some "3" ∧
    touchPoint (press 3081 2578 liveEnv) = (252, 77) ∧
    (loop 1001 (press 3081 2578 liveEnv) cafe).map (fun s => s.passwordBuffer) = some "3" ∧
    (tapAll 1001 liveEnv [(252, 77), (157, 77), (62, 77)] cafe).map
      (fun s => s.passwordBuffer) = some "321" ∧
    (tapAll 1001 liveEnv [(252, 77), (157, 77), (62, 77), (62, 203)] cafe).map
      (fun s => (s.passwordBuffer, connectAttempts s.trace)) = some ("", []) := by
  decide

/-! ## The network list -/

theorem inRow_unique (x y : Int) (i j : Nat) (h : inRow x y i) (h' : inRow x y j) : i = j := by
  unfold inRow at h h'
  omega

theorem listLoop_hit (ssid : Nat → String) (x y : Int) (i : Nat) (s : State)
    (hin : inRow x y i) (hi : (i : Int) < s.networkCount ∧ (i : Int) < 5) :
    ∀ fuel j : Nat, j ≤ i → i < j + fuel →
      handleListTouchLoop ssid x y fuel j s = selectRow ssid i s := by
  intro fuel
  induction fuel with
  | zero => intro j h1 h2; omega
  | succ fuel ih =>
    intro j h1 h2
    have hj : (j : Int) < s.networkCount ∧ (j : Int) < 5 := by omega
    rw [handleListTouchLoop, if_pos hj]
    by_cases hr : inRow x y j
    · rw [if_pos hr, inRow_unique x y i j hin hr]
      rfl
    · rw [if_neg hr]
      have hne : j ≠ i := fun h => hr (h ▸ hin)
      exact ih (j + 1) (by omega) (by omega)

theorem listLoop_cases (ssid : Nat → String) (x y : Int) (s : State) :
    ∀ fuel j : Nat, handleListTouchLoop ssid x y fuel j s = s ∨
      ∃ i : Nat, (i : Int) < s.networkCount ∧ (i : Int) < 5 ∧ inRow x y i ∧
        handleListTouchLoop ssid x y fuel j s = selectRow ssid i s := by
  intro fuel
  induction fuel with
  | zero => intro j; exact Or.inl rfl
  | succ fuel ih =>
    intro j
    rw [handleListTouchLoop]
    split
    · rename_i hj
      split
      · rename_i hr
        exact Or.inr ⟨j, hj.1, hj.2, hr, rfl⟩
      · exact ih (j + 1)
    · exact Or.inl rfl

theorem listLoop_miss (ssid : Nat → String) (x y : Int) (s : State)
    (h : ∀ i : Nat, (i : Int) < s.networkCount → (i : Int) < 5 → ¬ inRow x y i) :
    ∀ fuel j : Nat, handleListTouchLoop ssid x y fuel j s = s := by
  intro fuel j
  rcases listLoop_cases ssid x y s fuel j with h1 | ⟨i, h1, h2, h3, _⟩
  · exact h1
  · exact absurd h3 (h i h1 h2)

theorem drawWifiListLoop_eq (ssid : Nat → String) (n : Int) :
    ∀ fuel i : Nat, i + fuel = 5 →
      drawWifiListLoop ssid n fuel i =
        (List.range' i (min n 5 - (i : Int)).toNat).flatMap (rowEvents ssid) := by
  intro fuel
  induction fuel with
  | zero =>
    intro i hi
    have : (min n 5 - (i : Int)).toNat = 0 := by omega
    rw [this]
    rfl
  | succ fuel ih =>
    intro i hi
    rw [drawWifiListLoop]
    split
    · rename_i hc
      have : (min n 5 - (i : Int)).toNat = (min n 5 - ((i + 1 : Nat) : Int)).toNat + 1 := by
        omega
      rw [this, List.range'_succ, List.flatMap_cons, ih (i + 1) (by omega)]
      rfl
    · rename_i hc
      have : (min n 5 - (i : Int)).toNat = 0 := by omega
      rw [this]
      rfl

theorem drawWifiList_trace (ssid : Nat → String) (s : State) :
    (drawWifiList ssid s).trace =
      s.trace ++ ([Event.fillScreen Color.BLACK, Event.setTextColor Color.CYAN Color.BLACK,
        Event.drawString "Select WiFi" 10 5 2] ++
        (List.range (min s.networkCount 5).toNat).flatMap (rowEvents ssid)) := by
  unfold drawWifiList emit
  simp only
  rw [drawWifiListLoop_eq ssid s.networkCount 5 0 (by omega), List.range_eq_range']
  simp

theorem rects_rows (ssid : Nat → String) (k : Nat) :
    rects ((List.range k).flatMap (rowEvents ssid)) =
      (List.range k).map (fun i : Nat => ((5 : Int), 35 + 40 * (i : Int), (310 : Int), (35 : Int))) := by
  induction k with
  | zero => rfl
  | succ k ih =>
    unfold rects at *
    rw [List.range_succ, List.flatMap_append, List.filterMap_append, ih, List.map_append]
    simp [rowEvents, rectArgs, mul_comm]

theorem drawWifiList_rects (ssid : Nat → String) (s : State) :
    rects (drawWifiList ssid s).trace =
      rects s.trace ++ (List.range (min s.networkCount 5).toNat).map
        (fun i : Nat => ((5 : Int), 35 + 40 * (i : Int), (310 : Int), (35 : Int))) := by
  rw [drawWifiList_trace]
  unfold rects
  rw [List.filterMap_append, List.filterMap_append]
  have := rects_rows ssid (min s.networkCount 5).toNat
  unfold rects at this
  rw [this]
  simp [rectArgs]

/-- Claim C2: `drawWifiList` draws exactly `min(N, 5)` rows, row `i` at the rectangle
`(5, 35 + 40 i, 310, 35)`; a touch strictly inside the rectangle of a row `i < min(N, 5)`
selects the SSID of scan index `i`, empties the buffer and enters the Keypad state; and
every touch either changes nothing or selects such a row, so no network of index at
least 5 or at least `N` is ever selected. -/
theorem list_rows_and_selection (ssid : Nat → String) (s : State) :
    (drawWifiList ssid s).trace =
      s.trace ++ ([Event.fillScreen Color.BLACK, Event.setTextColor Color.CYAN Color.BLACK,
        Event.drawString "Select WiFi" 10 5 2] ++
        (List.range (min s.networkCount 5).toNat).flatMap (rowEvents ssid)) ∧
    rects (drawWifiList ssid s).trace =
      rects s.trace ++ (List.range (min s.networkCount 5).toNat).map
        (fun i : Nat => ((5 : Int), 35 + 40 * (i : Int), (310 : Int), (35 : Int))) ∧
    (∀ (i : Nat) (x y : Int), (i : Int) < min s.networkCount 5 →
      5 < x → x < 315 → 35 + 40 * (i : Int) < y → y < 70 + 40 * (i : Int) →
      handleListTouch ssid x y s = selectRow ssid i s ∧
      (handleListTouch ssid x y s).selectedSSID = ssid i ∧
      (handleListTouch ssid x y s).passwordBuffer = "" ∧
      (handleListTouch ssid x y s).currentState = AppState.KEYPAD) ∧
    (∀ x y : Int, handleListTouch ssid x y s = s ∨
      ∃ i : Nat, (i : Int) < min s.networkCount 5 ∧ inRow x y i ∧
        handleListTouch ssid x y s = selectRow ssid i s) := by
  refine ⟨drawWifiList_trace ssid s, drawWifiList_rects ssid s, ?_, ?_⟩
  · intro i x y hi h1 h2 h3 h4
    have hin : inRow x y i := by unfold inRow; omega
    have h := listLoop_hit ssid x y i s hin (by omega) 5 0 (by omega) (by omega)
    unfold handleListTouch
    rw [h]
    exact ⟨rfl, rfl, rfl, rfl⟩
  · intro x y
    rcases listLoop_cases ssid x y s 5 0 with h | ⟨i, h1, h2, h3, h4⟩
    · exact Or.inl h
    · exact Or.inr ⟨i, by omega, h3, h4⟩

theorem list_rows_and_selection_witness :
    rects (drawWifiList homeCafe { initial with networkCount := 2 }).trace =
      [(5, 35, 310, 35), (5, 75, 310, 35)] ∧
    (handleListTouch homeCafe 100 90 { initial with networkCount := 2 }).selectedSSID = "Cafe" ∧
    (handleListTouch homeCafe 100 90 { initial with networkCount := 2 }).currentState =
      AppState.KEYPAD ∧
    handleListTouch homeCafe 100 130 { initial with networkCount := 2 } =
      { initial with networkCount := 2 } :=
  have h := list_rows_and_selection homeCafe { initial with networkCount := 2 }
  have h1 := h.2.2.1 1 100 90 (by decide) (by decide) (by decide) (by decide) (by decide)
  ⟨h.2.1, h1.2.1, h1.2.2.2, by decide⟩

/-! ## Observations are additive -/

theorem dispatches_append (a b : List Event) :
    dispatches (a ++ b) = dispatches a + dispatches b := by
  simp [dispatches, List.countP_append]

theorem scanRequests_append (a b : List Event) :
    scanRequests (a ++ b) = scanRequests a + scanRequests b := by
  simp [scanRequests, List.countP_append]

theorem drawn_append (a b : List Event) : drawn (a ++ b) = drawn a ++ drawn b := by
  simp [drawn, List.filter_append]

theorem connectAttempts_append (a b : List Event) :
    connectAttempts (a ++ b) = connectAttempts a ++ connectAttempts b := by
  simp [connectAttempts, List.filterMap_append]

theorem storeWrites_append (a b : List Event) :
    storeWrites (a ++ b) = storeWrites a ++ storeWrites b := by
  simp [storeWrites, List.filterMap_append]

theorem keypadEvents_quiet :
    dispatches (cells.flatMap drawKeypadCell) = 0 ∧
    scanRequests (cells.flatMap drawKeypadCell) = 0 ∧
    connectAttempts (cells.flatMap drawKeypadCell) = [] := by
  decide

theorem rowEvents_quiet (ssid : Nat → String) (k : Nat) :
    dispatches ((List.range k).flatMap (rowEvents ssid)) = 0 ∧
    scanRequests ((List.range k).flatMap (rowEvents ssid)) = 0 ∧
    connectAttempts ((List.range k).flatMap (rowEvents ssid)) = [] := by
  induction k with
  | zero => exact ⟨rfl, rfl, rfl⟩
  | succ k ih =>
    rw [List.range_succ, List.flatMap_append, dispatches_append, scanRequests_append,
      connectAttempts_append, ih.1, ih.2.1, ih.2.2]
    exact ⟨rfl, rfl, rfl⟩

/-! ## The connection attempt -/

theorem connectToWifi_eq (fuel : Nat) (env : ConnEnv) (s p : String) (st : State)
    (i now : Nat) (h : waitLoop env (startTime env) fuel 0 (startTime env) = some (i, now)) :
    connectToWifi fuel env s p st =
      some (if env.radio (i + 1) = true then connectedState s p st else failedState s p st) := by
  unfold startTime at h
  unfold connectToWifi
  simp only [h]
  split <;> rfl

theorem connectToWifi_some (fuel : Nat) (env : ConnEnv) (s p : String) (st st' : State)
    (h : connectToWifi fuel env s p st = some st') :
    ∃ i now, waitLoop env (startTime env) fuel 0 (startTime env) = some (i, now) ∧
      st' = if env.radio (i + 1) = true then connectedState s p st else failedState s p st := by
  cases hw : waitLoop env (startTime env) fuel 0 (startTime env) with
  | none =>
    unfold startTime at hw
    unfold connectToWifi at h
    rw [hw] at h
    exact absurd h (by simp)
  | some r =>
    obtain ⟨i, now⟩ := r
    rw [connectToWifi_eq fuel env s p st i now hw] at h
    exact ⟨i, now, rfl, (Option.some.inj h).symm⟩

theorem connectToWifi_completes (fuel : Nat) (env : ConnEnv) (s p : String) (st : State)
    (hc : ClockOK env) (hf : 1001 ≤ fuel) :
    ∃ st', connectToWifi fuel env s p st = some st' := by
  obtain ⟨i, now, h⟩ := waitLoop_returns env hc fuel hf
  exact ⟨_, connectToWifi_eq fuel env s p st i now h⟩

/-! ## Frame properties of the handlers -/

theorem selectRow_frame (ssid : Nat → String) (i : Nat) (s : State) :
    (selectRow ssid i s).touchLocked = s.touchLocked ∧
    dispatches (selectRow ssid i s).trace = dispatches s.trace ∧
    scanRequests (selectRow ssid i s).trace = scanRequests s.trace ∧
    connectAttempts (selectRow ssid i s).trace = connectAttempts s.trace ∧
    (selectRow ssid i s).networkCount = s.networkCount ∧
    (selectRow ssid i s).scanStarted = s.scanStarted := by
  obtain ⟨h1, h2, h3⟩ := keypadEvents_quiet
  unfold selectRow drawKeypad emit
  simp only [dispatches_append, scanRequests_append, connectAttempts_append, h1, h2, h3]
  simp [dispatches, scanRequests, connectAttempts, isGetPoint, isScanRequest, beginArgs]

theorem handleListTouch_frame (ssid : Nat → String) (x y : Int) (s : State) :
    (handleListTouch ssid x y s).touchLocked = s.touchLocked ∧
    dispatches (handleListTouch ssid x y s).trace = dispatches s.trace ∧
    scanRequests (handleListTouch ssid x y s).trace = scanRequests s.trace ∧
    connectAttempts (handleListTouch ssid x y s).trace = connectAttempts s.trace ∧
    (handleListTouch ssid x y s).networkCount = s.networkCount ∧
    (handleListTouch ssid x y s).scanStarted = s.scanStarted := by
  unfold handleListTouch
  rcases listLoop_cases ssid x y s 5 0 with h | ⟨i, _, _, _, h⟩
  · rw [h]; exact ⟨rfl, rfl, rfl, rfl, rfl, rfl⟩
  · rw [h]; exact selectRow_frame ssid i s

theorem pressKey_frame (fuel : Nat) (env : ConnEnv) (val : String) (s s' : State)
    (h : pressKey fuel env val s = some s') :
    s'.touchLocked = s.touchLocked ∧
    dispatches s'.trace = dispatches s.trace ∧
    scanRequests s'.trace = scanRequests s.trace ∧
    s'.networkCount = s.networkCount := by
  unfold pressKey at h
  split at h
  · cases h
    simp only [redrawBuffer, emit, dispatches_append, scanRequests_append]
    simp [dispatches, scanRequests, connectAttempts, isGetPoint, isScanRequest, beginArgs]
  · split at h
    · obtain ⟨i, now, _, rfl⟩ := connectToWifi_some _ _ _ _ _ _ h
      split
      · simp only [connectedState, emit, dispatches_append, scanRequests_append]
        simp [dispatches, scanRequests, connectAttempts, isGetPoint, isScanRequest, beginArgs]
      · simp only [failedState, startScan, emit, dispatches_append, scanRequests_append]
        simp [dispatches, scanRequests, connectAttempts, isGetPoint, isScanRequest, beginArgs]
    · cases h
      simp only [redrawBuffer, emit, dispatches_append, scanRequests_append]
      simp [dispatches, scanRequests, connectAttempts, isGetPoint, isScanRequest, beginArgs]

theorem handleKeypadTouch_frame (fuel : Nat) (env : ConnEnv) (x y : Int) (s s' : State)
    (h : handleKeypadTouch fuel env x y s = some s') :
    s'.touchLocked = s.touchLocked ∧
    dispatches s'.trace = dispatches s.trace ∧
    scanRequests s'.trace = scanRequests s.trace ∧
    s'.networkCount = s.networkCount := by
  rcases handleKeypadTouch_cases fuel env x y s with h1 | ⟨r, c, _, _, _, h1⟩
  · rw [h1] at h
    cases h
    exact ⟨rfl, rfl, rfl, rfl⟩
  · rw [h1] at h
    exact pressKey_frame fuel env _ s s' h

theorem pressKey_completes (fuel : Nat) (env : ConnEnv) (val : String) (s : State)
    (hc : ClockOK env) (hf : 1001 ≤ fuel) : ∃ s', pressKey fuel env val s = some s' := by
  unfold pressKey
  split
  · exact ⟨_, rfl⟩
  · split
    · exact connectToWifi_completes fuel env _ _ s hc hf
    · exact ⟨_, rfl⟩

theorem handleKeypadTouch_completes (fuel : Nat) (env : ConnEnv) (x y : Int) (s : State)
    (hc : ClockOK env) (hf : 1001 ≤ fuel) :
    ∃ s', handleKeypadTouch fuel env x y s = some s' := by
  rcases handleKeypadTouch_cases fuel env x y s with h1 | ⟨r, c, _, _, _, h1⟩
  · exact ⟨s, h1⟩
  · rw [h1]
    exact pressKey_completes fuel env _ s hc hf

theorem drawWifiList_frame (ssid : Nat → String) (s : State) :
    dispatches (drawWifiList ssid s).trace = dispatches s.trace ∧
    scanRequests (drawWifiList ssid s).trace = scanRequests s.trace ∧
    connectAttempts (drawWifiList ssid s).trace = connectAttempts s.trace := by
  obtain ⟨h1, h2, h3⟩ := rowEvents_quiet ssid (min s.networkCount 5).toNat
  rw [drawWifiList_trace]
  simp only [dispatches_append, scanRequests_append, connectAttempts_append, h1, h2, h3]
  simp [dispatches, scanRequests, connectAttempts, isGetPoint, isScanRequest, beginArgs]

/-! ## The blocks of `loop` -/

theorem rects_append (a b : List Event) : rects (a ++ b) = rects a ++ rects b := by
  simp [rects, List.filterMap_append]

theorem requestScan_frame (s : State) :
    (requestScan s).currentState = s.currentState ∧
    (requestScan s).selectedSSID = s.selectedSSID ∧
    (requestScan s).passwordBuffer = s.passwordBuffer ∧
    (requestScan s).networkCount = s.networkCount ∧
    (requestScan s).touchLocked = s.touchLocked ∧
    (requestScan s).scanStarted = true ∧
    dispatches (requestScan s).trace = dispatches s.trace ∧
    connectAttempts (requestScan s).trace = connectAttempts s.trace ∧
    rects (requestScan s).trace = rects s.trace ∧
    scanRequests (requestScan s).trace =
      scanRequests s.trace + (if s.scanStarted = false then 1 else 0) := by
  unfold requestScan
  split
  · rename_i h
    simp only [emit, dispatches_append, connectAttempts_append, rects_append,
      scanRequests_append, h]
    simp [dispatches, scanRequests, connectAttempts, rects, isGetPoint, isScanRequest,
      beginArgs, rectArgs]
  · rename_i h
    simp only [h]
    simp at h
    simp [h]

theorem scanPhase_neg (inp : LoopInput) (s : State)
    (h1 : s.currentState = AppState.SCANNING) (h2 : inp.scanComplete < 0) :
    scanPhase inp s = requestScan s := by
  simp [scanPhase, h1, not_le.mpr h2]

theorem scanPhase_done (inp : LoopInput) (s : State)
    (h1 : s.currentState = AppState.SCANNING) (h2 : 0 ≤ inp.scanComplete) :
    scanPhase inp s =
      { drawWifiList inp.ssid { requestScan s with networkCount := inp.scanComplete } with
        currentState := AppState.LIST, scanStarted := false } := by
  simp [scanPhase, h1, h2]

theorem scanPhase_other (inp : LoopInput) (s : State)
    (h : s.currentState ≠ AppState.SCANNING) : scanPhase inp s = s := by
  simp [scanPhase, h]

theorem scanPhase_frame (inp : LoopInput) (s : State) :
    (scanPhase inp s).touchLocked = s.touchLocked ∧
    dispatches (scanPhase inp s).trace = dispatches s.trace ∧
    connectAttempts (scanPhase inp s).trace = connectAttempts s.trace := by
  obtain ⟨_, _, _, _, h5, _, h7, h8, _, _⟩ := requestScan_frame s
  by_cases h1 : s.currentState = AppState.SCANNING
  · by_cases h2 : 0 ≤ inp.scanComplete
    · rw [scanPhase_done inp s h1 h2]
      obtain ⟨g1, _, g3⟩ :=
        drawWifiList_frame inp.ssid { requestScan s with networkCount := inp.scanComplete }
      refine ⟨?_, ?_, ?_⟩
      · exact h5
      · exact g1.trans h7
      · exact g3.trans h8
    · rw [scanPhase_neg inp s h1 (not_le.mp h2)]
      exact ⟨h5, h7, h8⟩
  · rw [scanPhase_other inp s h1]
    exact ⟨rfl, rfl, rfl⟩

theorem latch_frame (s : State) :
    (latch s).currentState = s.currentState ∧
    (latch s).selectedSSID = s.selectedSSID ∧
    (latch s).passwordBuffer = s.passwordBuffer ∧
    (latch s).networkCount = s.networkCount ∧
    (latch s).scanStarted = s.scanStarted ∧
    (latch s).touchLocked = true ∧
    dispatches (latch s).trace = dispatches s.trace + 1 ∧
    scanRequests (latch s).trace = scanRequests s.trace ∧
    connectAttempts (latch s).trace = connectAttempts s.trace ∧
    drawn (latch s).trace = drawn s.trace := by
  simp only [latch, emit, dispatches_append, scanRequests_append, connectAttempts_append,
    drawn_append]
  simp [dispatches, scanRequests, connectAttempts, drawn, isGetPoint, isScanRequest,
    beginArgs, isDraw]

theorem dispatch_skip (fuel : Nat) (inp : LoopInput) (s : State)
    (h : ¬ (inp.touched1 = true ∧ s.touchLocked = false)) : dispatch fuel inp s = some s := by
  unfold dispatch
  rw [if_neg h]

theorem dispatch_scanning (fuel : Nat) (inp : LoopInput) (s : State)
    (h : inp.touched1 = true ∧ s.touchLocked = false)
    (hs : s.currentState = AppState.SCANNING) : dispatch fuel inp s = some (latch s) := by
  unfold dispatch
  rw [if_pos h]
  simp [(latch_frame s).1, hs]

theorem dispatch_list (fuel : Nat) (inp : LoopInput) (s : State)
    (h : inp.touched1 = true ∧ s.touchLocked = false)
    (hs : s.currentState = AppState.LIST) :
    dispatch fuel inp s =
      some (handleListTouch inp.ssid (touchPoint inp).1 (touchPoint inp).2 (latch s)) := by
  unfold dispatch
  rw [if_pos h]
  simp [(latch_frame s).1, hs, touchPoint]

theorem dispatch_keypad (fuel : Nat) (inp : LoopInput) (s : State)
    (h : inp.touched1 = true ∧ s.touchLocked = false)
    (hs : s.currentState = AppState.KEYPAD) :
    dispatch fuel inp s =
      handleKeypadTouch fuel inp.conn (touchPoint inp).1 (touchPoint inp).2 (latch s) := by
  unfold dispatch
  rw [if_pos h]
  simp [(latch_frame s).1, hs, touchPoint]

theorem dispatch_frame (fuel : Nat) (inp : LoopInput) (s s' : State)
    (h : dispatch fuel inp s = some s') :
    s'.touchLocked = (inp.touched1 || s.touchLocked) ∧
    dispatches s'.trace =
      dispatches s.trace + (if inp.touched1 = true ∧ s.touchLocked = false then 1 else 0) ∧
    scanRequests s'.trace = scanRequests s.trace ∧
    s'.networkCount = s.networkCount := by
  by_cases hd : inp.touched1 = true ∧ s.touchLocked = false
  · obtain ⟨_, _, _, l4, _, l6, l7, l8, _, _⟩ := latch_frame s
    rw [if_pos hd, hd.1, Bool.true_or]
    cases hcs : s.currentState with
    | SCANNING =>
      rw [dispatch_scanning fuel inp s hd hcs] at h
      cases h
      exact ⟨l6, l7, l8, l4⟩
    | LIST =>
      rw [dispatch_list fuel inp s hd hcs] at h
      cases h
      obtain ⟨g1, g2, g3, _, g5, _⟩ :=
        handleListTouch_frame inp.ssid (touchPoint inp).1 (touchPoint inp).2 (latch s)
      exact ⟨g1.trans l6, g2.trans l7, g3.trans l8, g5.trans l4⟩
    | KEYPAD =>
      rw [dispatch_keypad fuel inp s hd hcs] at h
      obtain ⟨g1, g2, g3, g4⟩ := handleKeypadTouch_frame _ _ _ _ _ _ h
      exact ⟨g1.trans l6, g2.trans l7, g3.trans l8, g4.trans l4⟩
  · rw [dispatch_skip fuel inp s hd] at h
    cases h
    rw [if_neg hd]
    refine ⟨?_, rfl, rfl, rfl⟩
    cases h1 : inp.touched1 <;> cases h2 : s.touchLocked <;> simp_all

theorem dispatch_completes (fuel : Nat) (inp : LoopInput) (s : State)
    (hc : ClockOK inp.conn) (hf : 1001 ≤ fuel) : ∃ s', dispatch fuel inp s = some s' := by
  by_cases hd : inp.touched1 = true ∧ s.touchLocked = false
  · cases hcs : s.currentState with
    | SCANNING => exact ⟨_, dispatch_scanning fuel inp s hd hcs⟩
    | LIST => exact ⟨_, dispatch_list fuel inp s hd hcs⟩
    | KEYPAD =>
      rw [dispatch_keypad fuel inp s hd hcs]
      exact handleKeypadTouch_completes fuel inp.conn _ _ _ hc hf
  · exact ⟨s, dispatch_skip fuel inp s hd⟩

theorem loop_some (fuel : Nat) (inp : LoopInput) (s s' : State)
    (h : loop fuel inp s = some s') :
    ∃ sd, dispatch fuel inp (scanPhase inp s) = some sd ∧ s' = unlock inp sd := by
  unfold loop touchPhase at h
  cases hd : dispatch fuel inp (scanPhase inp s) with
  | none => rw [hd] at h; exact absurd h (by simp)
  | some sd =>
    rw [hd] at h
    exact ⟨sd, rfl, (Option.some.inj h).symm⟩

theorem loop_of_dispatch (fuel : Nat) (inp : LoopInput) (s sd : State)
    (h : dispatch fuel inp (scanPhase inp s) = some sd) :
    loop fuel inp s = some (unlock inp sd) := by
  unfold loop touchPhase
  rw [h]
  rfl

theorem unlock_frame (inp : LoopInput) (s : State) :
    (unlock inp s).touchLocked = (inp.touched2 && s.touchLocked) ∧
    (unlock inp s).trace = s.trace ∧
    (unlock inp s).currentState = s.currentState ∧
    (unlock inp s).selectedSSID = s.selectedSSID ∧
    (unlock inp s).passwordBuffer = s.passwordBuffer ∧
    (unlock inp s).networkCount = s.networkCount ∧
    (unlock inp s).scanStarted = s.scanStarted := by
  unfold unlock
  cases h : inp.touched2 <;> simp

/-- One iteration of `loop` dispatches exactly when contact is read with the latch open,
and leaves the latch set exactly when the second reading still shows contact after a
dispatch or with the latch already set. -/
theorem loop_frame (fuel : Nat) (inp : LoopInput) (s s' : State)
    (h : loop fuel inp s = some s') :
    s'.touchLocked = (inp.touched2 && (inp.touched1 || s.touchLocked)) ∧
    dispatches s'.trace =
      dispatches s.trace + (if inp.touched1 = true ∧ s.touchLocked = false then 1 else 0) := by
  obtain ⟨sd, hd, rfl⟩ := loop_some fuel inp s s' h
  obtain ⟨d1, d2, _, _⟩ := dispatch_frame fuel inp _ sd hd
  obtain ⟨p1, p2, _⟩ := scanPhase_frame inp s
  obtain ⟨u1, u2, _⟩ := unlock_frame inp sd
  rw [u1, u2, d1, d2, p1, p2]
  exact ⟨rfl, rfl⟩

theorem loop_completes (fuel : Nat) (inp : LoopInput) (s : State)
    (hc : ClockOK inp.conn) (hf : 1001 ≤ fuel) : ∃ s', loop fuel inp s = some s' := by
  obtain ⟨sd, hd⟩ := dispatch_completes fuel inp (scanPhase inp s) hc hf
  exact ⟨_, loop_of_dispatch fuel inp s sd hd⟩

theorem runLoop_completes (fuel : Nat) (hf : 1001 ≤ fuel) :
    ∀ (inputs : List LoopInput) (s : State), (∀ j ∈ inputs, ClockOK j.conn) →
      ∃ s', runLoop fuel inputs s = some s' := by
  intro inputs
  induction inputs with
  | nil => intro s _; exact ⟨s, rfl⟩
  | cons inp rest ih =>
    intro s h
    obtain ⟨s1, h1⟩ := loop_completes fuel inp s (h inp (List.mem_cons_self _ _)) hf
    obtain ⟨s2, h2⟩ := ih s1 (fun j hj => h j (List.mem_cons_of_mem _ hj))
    refine ⟨s2, ?_⟩
    rw [runLoop, h1]
    exact h2

theorem runLoop_cons (fuel : Nat) (inp : LoopInput) (rest : List LoopInput) (s s' : State)
    (h : runLoop fuel (inp :: rest) s = some s') :
    ∃ s1, loop fuel inp s = some s1 ∧ runLoop fuel rest s1 = some s' := by
  rw [runLoop] at h
  cases h1 : loop fuel inp s with
  | none => rw [h1] at h; exact absurd h (by simp)
  | some s1 => rw [h1] at h; exact ⟨s1, rfl, h⟩

/-! ## The touch latch -/

theorem run_locked (fuel : Nat) :
    ∀ (rest : List LoopInput) (s s' : State), s.touchLocked = true →
      (∀ j ∈ rest, j.touched1 = true ∧ j.touched2 = true) →
      runLoop fuel rest s = some s' →
      dispatches s'.trace = dispatches s.trace ∧ s'.touchLocked = true := by
  intro rest
  induction rest with
  | nil =>
    intro s s' hl _ h
    rw [runLoop] at h
    cases h
    exact ⟨rfl, hl⟩
  | cons inp rest ih =>
    intro s s' hl hall h
    obtain ⟨s1, h1, h2⟩ := runLoop_cons fuel inp rest s s' h
    obtain ⟨f1, f2⟩ := loop_frame fuel inp s s1 h1
    have hinp := hall inp (List.mem_cons_self _ _)
    rw [hinp.1, hinp.2, hl] at f1
    rw [hl] at f2
    obtain ⟨g1, g2⟩ := ih s1 s' f1 (fun j hj => hall j (List.mem_cons_of_mem _ hj)) h2
    refine ⟨?_, g2⟩
    rw [g1, f2]
    simp

theorem unlock_held (inp : LoopInput) (h : inp.touched2 = true) (o : Option State) :
    o.map (unlock inp) = o := by
  have hid : unlock inp = id := by
    funext s
    simp [unlock, h]
  rw [hid, Option.map_id]
  rfl

/-- With contact read and the latch open, one iteration of `loop` is the scan block, the
latch and point read, and one call of the handler of the state the scan block left. -/
theorem loop_dispatching (fuel : Nat) (inp : LoopInput) (s : State)
    (hinp : inp.touched1 = true ∧ inp.touched2 = true) (hopen : s.touchLocked = false) :
    loop fuel inp s =
      (if (scanPhase inp s).currentState = AppState.LIST then
        some (handleListTouch inp.ssid (map inp.rawX 421 3798 0 320)
          (map inp.rawY 3626 362 0 240) (latch (scanPhase inp s)))
      else if (scanPhase inp s).currentState = AppState.KEYPAD then
        handleKeypadTouch fuel inp.conn (map inp.rawX 421 3798 0 320)
          (map inp.rawY 3626 362 0 240) (latch (scanPhase inp s))
      else some (latch (scanPhase inp s))) := by
  have hd : inp.touched1 = true ∧ (scanPhase inp s).touchLocked = false :=
    ⟨hinp.1, (scanPhase_frame inp s).1.trans hopen⟩
  unfold loop touchPhase
  rw [unlock_held inp hinp.2]
  cases hcs : (scanPhase inp s).currentState with
  | SCANNING =>
    rw [dispatch_scanning fuel inp _ hd hcs]
    simp
  | LIST =>
    rw [dispatch_list fuel inp _ hd hcs]
    simp [touchPoint]
  | KEYPAD =>
    rw [dispatch_keypad fuel inp _ hd hcs]
    simp [touchPoint]

/-- With the latch set and contact still read, one iteration of `loop` is the scan block
alone: no point is read and no handler is called. -/
theorem loop_held (fuel : Nat) (inp : LoopInput) (s : State)
    (hinp : inp.touched2 = true) (hl : s.touchLocked = true) :
    loop fuel inp s = some (scanPhase inp s) := by
  have hd : ¬ (inp.touched1 = true ∧ (scanPhase inp s).touchLocked = false) := by
    rw [(scanPhase_frame inp s).1, hl]
    simp
  unfold loop touchPhase
  rw [unlock_held inp hinp, dispatch_skip fuel inp _ hd]

/-- Claim C5: with one contact reading per iteration, a run of consecutive iterations
that all report contact, begun with the latch open (at startup, or after an iteration
that reported no contact), executes the dispatch branch exactly once, in its first
iteration.  The first iteration is the scan block followed by the latch, the point read,
the mapping and one call of the handler of the current state; every later iteration of
the run finds the latch set and is the scan block alone.  Counted as `getPoint` calls, the
number of dispatches is one more than before the run after the first iteration and after
every later one.  A contact that follows an iteration without contact is dispatched
again.  The run completes whenever every connection attempt in it sees a clock that
advances by 10 ms to `2 ^ 32 - 10000` ms per `delay(10)`. -/
theorem touch_latch (fuel : Nat) (s : State) (inp : LoopInput) (rest : List LoopInput)
    (hpre : s.touchLocked = false ∨
      ∃ s0 inp0 fuel0, inp0.touched1 = false ∧ inp0.touched2 = false ∧
        loop fuel0 inp0 s0 = some s)
    (hinp : inp.touched1 = true ∧ inp.touched2 = true)
    (hrest : ∀ j ∈ rest, j.touched1 = true ∧ j.touched2 = true) :
    loop fuel inp s =
      (if (scanPhase inp s).currentState = AppState.LIST then
        some (handleListTouch inp.ssid (map inp.rawX 421 3798 0 320)
          (map inp.rawY 3626 362 0 240) (latch (scanPhase inp s)))
      else if (scanPhase inp s).currentState = AppState.KEYPAD then
        handleKeypadTouch fuel inp.conn (map inp.rawX 421 3798 0 320)
          (map inp.rawY 3626 362 0 240) (latch (scanPhase inp s))
      else some (latch (scanPhase inp s))) ∧
    (∀ pre cur post sa, rest = pre ++ cur :: post →
      runLoop fuel (inp :: pre) s = some sa →
      sa.touchLocked = true ∧ loop fuel cur sa = some (scanPhase cur sa)) ∧
    (∀ n s', runLoop fuel (inp :: rest.take n) s = some s' →
      dispatches s'.trace = dispatches s.trace + 1) ∧
    ((∀ j ∈ inp :: rest, ClockOK j.conn) → 1001 ≤ fuel →
      ∃ s', runLoop fuel (inp :: rest) s = some s') := by
  have hopen : s.touchLocked = false := by
    rcases hpre with h | ⟨s0, inp0, fuel0, _, h2, h3⟩
    · exact h
    · have := (loop_frame fuel0 inp0 s0 s h3).1
      rw [h2] at this
      simpa using this
  refine ⟨loop_dispatching fuel inp s hinp hopen, ?_, ?_, ?_⟩
  · intro pre cur post sa hsplit h
    obtain ⟨s1, h1, h2⟩ := runLoop_cons fuel inp _ s sa h
    obtain ⟨f1, _⟩ := loop_frame fuel inp s s1 h1
    rw [hinp.1, hinp.2, hopen] at f1
    have hpre' : ∀ j ∈ pre, j.touched1 = true ∧ j.touched2 = true := by
      intro j hj
      exact hrest j (by rw [hsplit]; exact List.mem_append_left _ hj)
    have hcur : cur.touched1 = true ∧ cur.touched2 = true :=
      hrest cur (by rw [hsplit]; simp)
    obtain ⟨_, hl⟩ := run_locked fuel pre s1 sa f1 hpre' h2
    exact ⟨hl, loop_held fuel cur sa hcur.2 hl⟩
  · intro n s' h
    obtain ⟨s1, h1, h2⟩ := runLoop_cons fuel inp _ s s' h
    obtain ⟨f1, f2⟩ := loop_frame fuel inp s s1 h1
    rw [hinp.1, hinp.2, hopen] at f1
    rw [hinp.1, hopen] at f2
    rw [(run_locked fuel _ s1 s' f1 (fun j hj => hrest j (List.mem_of_mem_take hj)) h2).1, f2]
    simp
  · intro hc hf
    exact runLoop_completes fuel hf _ s hc

theorem liveEnv_clockOK : ClockOK liveEnv := by
  intro k
  simp only [liveEnv]
  norm_num

theorem touch_latch_witness :
    loop 1001 (press 1076 2483 liveEnv) cafe =
      handleKeypadTouch 1001 liveEnv 62 84 (latch cafe) ∧
    (loop 1001 (press 1076 2483 liveEnv) cafe).map (fun s => s.passwordBuffer) = some "1" ∧
    (∀ sa, runLoop 1001 [press 1076 2483 liveEnv, press 1076 2483 liveEnv] cafe = some sa →
      sa.touchLocked = true ∧
      loop 1001 (press 1080 2480 liveEnv) sa =
        some (scanPhase (press 1080 2480 liveEnv) sa)) ∧
    (runLoop 1001 [press 1076 2483 liveEnv, press 1076 2483 liveEnv,
        press 1080 2480 liveEnv] cafe).map
      (fun s => (s.passwordBuffer, dispatches s.trace)) = some ("1", 1) ∧
    ∃ s', runLoop 1001 [press 1076 2483 liveEnv, press 1076 2483 liveEnv,
        press 1080 2480 liveEnv] cafe = some s' :=
  have h := touch_latch 1001 cafe (press 1076 2483 liveEnv)
    [press 1076 2483 liveEnv, press 1080 2480 liveEnv] (Or.inl rfl) ⟨rfl, rfl⟩
    (by
      intro j hj
      simp only [List.mem_cons, List.mem_singleton, List.not_mem_nil, or_false] at hj
      rcases hj with rfl | rfl <;> exact ⟨rfl, rfl⟩)
  ⟨h.1.trans (by decide), by decide,
    fun sa hsa => h.2.1 [press 1076 2483 liveEnv] (press 1080 2480 liveEnv) [] sa rfl hsa,
    by decide,
    h.2.2.2
      (by
        intro j hj
        simp only [List.mem_cons, List.mem_singleton, List.not_mem_nil, or_false] at hj
        rcases hj with rfl | rfl | rfl <;> exact liveEnv_clockOK)
      (le_refl _)⟩

/-! ## Outcomes of a connection attempt -/

theorem dispatch_not_keypad (fuel : Nat) (inp : LoopInput) (s : State)
    (h : s.currentState ≠ AppState.KEYPAD) : ∃ sd, dispatch fuel inp s = some sd := by
  by_cases hd : inp.touched1 = true ∧ s.touchLocked = false
  · cases hcs : s.currentState with
    | SCANNING => exact ⟨_, dispatch_scanning fuel inp s hd hcs⟩
    | LIST => exact ⟨_, dispatch_list fuel inp s hd hcs⟩
    | KEYPAD => exact absurd hcs h
  · exact ⟨s, dispatch_skip fuel inp s hd⟩

theorem scanPhase_scanning (inp : LoopInput) (s : State)
    (h1 : s.currentState = AppState.SCANNING) :
    (scanPhase inp s).currentState ≠ AppState.KEYPAD ∧
    scanRequests (scanPhase inp s).trace =
      scanRequests s.trace + (if s.scanStarted = false then 1 else 0) := by
  obtain ⟨r1, _, _, _, _, _, _, _, _, r10⟩ := requestScan_frame s
  by_cases h2 : 0 ≤ inp.scanComplete
  · rw [scanPhase_done inp s h1 h2]
    obtain ⟨_, g2, _⟩ :=
      drawWifiList_frame inp.ssid { requestScan s with networkCount := inp.scanComplete }
    refine ⟨by simp, ?_⟩
    exact g2.trans r10
  · rw [scanPhase_neg inp s h1 (not_le.mp h2)]
    refine ⟨?_, r10⟩
    rw [r1, h1]
    simp

/-- A fresh entry to the Scanning state makes the next iteration of `loop` issue exactly
one scan request. -/
theorem loop_fresh_scan (fuel : Nat) (inp : LoopInput) (s : State)
    (h1 : s.currentState = AppState.SCANNING) (h2 : s.scanStarted = false) :
    ∃ s2, loop fuel inp s = some s2 ∧ scanRequests s2.trace = scanRequests s.trace + 1 := by
  obtain ⟨p1, p2⟩ := scanPhase_scanning inp s h1
  obtain ⟨sd, hd⟩ := dispatch_not_keypad fuel inp (scanPhase inp s) p1
  obtain ⟨_, _, d3, _⟩ := dispatch_frame fuel inp _ sd hd
  obtain ⟨_, u2, _⟩ := unlock_frame inp sd
  refine ⟨_, loop_of_dispatch fuel inp s sd hd, ?_⟩
  rw [u2, d3, p2, if_pos h2]

/-- Claim C9: `connectToWifi(s, p)` has two outcomes, decided by the radio status read
after the wait loop.  Connected: the store receives exactly the writes `("ssid", s)` and
`("pass", p)`, and `currentState` and `scanStarted` are left alone (`startScan` is not
called).  Otherwise: nothing is written, `currentState = SCANNING` and `scanStarted =
false`, and the next iteration of `loop` issues one scan request.  The call returns
whenever the clock advances by 10 ms to `2 ^ 32 - 10000` ms per `delay(10)`. -/
theorem connectToWifi_outcomes (env : ConnEnv) (s p : String) (st : State) :
    (∀ fuel st', connectToWifi fuel env s p st = some st' →
      ∃ i now, waitLoop env (startTime env) fuel 0 (startTime env) = some (i, now) ∧
        (env.radio (i + 1) = true →
          st' = connectedState s p st ∧
          storeWrites st'.trace = storeWrites st.trace ++ [("ssid", s), ("pass", p)] ∧
          st'.currentState = st.currentState ∧ st'.scanStarted = st.scanStarted) ∧
        (env.radio (i + 1) = false →
          st' = failedState s p st ∧
          storeWrites st'.trace = storeWrites st.trace ∧
          st'.currentState = AppState.SCANNING ∧ st'.scanStarted = false ∧
          ∀ fuel2 inp, ∃ s2, loop fuel2 inp st' = some s2 ∧
            scanRequests s2.trace = scanRequests st'.trace + 1)) ∧
    (ClockOK env → ∀ fuel, 1001 ≤ fuel → ∃ st', connectToWifi fuel env s p st = some st') := by
  constructor
  · intro fuel st' h
    obtain ⟨i, now, hw, hst⟩ := connectToWifi_some fuel env s p st st' h
    refine ⟨i, now, hw, ?_, ?_⟩
    · intro hr
      rw [if_pos hr] at hst
      subst hst
      refine ⟨rfl, ?_, rfl, rfl⟩
      simp only [connectedState, emit, storeWrites_append]
      simp [storeWrites, putArgs]
    · intro hr
      rw [if_neg (by simp [hr])] at hst
      subst hst
      refine ⟨rfl, ?_, rfl, rfl, ?_⟩
      · simp only [failedState, startScan, emit, storeWrites_append]
        simp [storeWrites, putArgs]
      · intro fuel2 inp
        exact loop_fresh_scan fuel2 inp _ rfl rfl
  · intro hc fuel hf
    exact connectToWifi_completes fuel env s p st hc hf

theorem connectToWifi_outcomes_witness :
    (∃ st', connectToWifi 1001 liveEnv "Cafe" "123" cafe123 = some st') ∧
    connectToWifi 1001 liveEnv "Cafe" "123" cafe123 = some (connectedState "Cafe" "123" cafe123) ∧
    connectToWifi 1001 lostEnv "Cafe" "123" cafe123 = some (failedState "Cafe" "123" cafe123) :=
  ⟨(connectToWifi_outcomes liveEnv "Cafe" "123" cafe123).2 liveEnv_clockOK 1001 (le_refl _),
    by decide, by decide⟩

/-! ## The Scanning state -/

theorem loop_scanning_neg (fuel : Nat) (inp : LoopInput) (s : State)
    (h1 : s.currentState = AppState.SCANNING) (h2 : inp.scanComplete < 0) :
    ∃ s', loop fuel inp s = some s' ∧ s'.currentState = AppState.SCANNING ∧
      s'.scanStarted = true ∧
      scanRequests s'.trace =
        scanRequests s.trace + (if s.scanStarted = false then 1 else 0) := by
  obtain ⟨r1, _, _, _, _, r6, _, _, _, r10⟩ := requestScan_frame s
  have hsp := scanPhase_neg inp s h1 h2
  have hcs : (requestScan s).currentState = AppState.SCANNING := r1.trans h1
  by_cases hd : inp.touched1 = true ∧ (requestScan s).touchLocked = false
  · obtain ⟨l1, _, _, _, l5, _, _, l8, _, _⟩ := latch_frame (requestScan s)
    obtain ⟨_, u2, u3, _, _, _, u7⟩ := unlock_frame inp (latch (requestScan s))
    refine ⟨_, loop_of_dispatch fuel inp s _
      (by rw [hsp]; exact dispatch_scanning fuel inp _ hd hcs), ?_, ?_, ?_⟩
    · rw [u3, l1, hcs]
    · rw [u7, l5, r6]
    · rw [u2, l8, r10]
  · obtain ⟨_, u2, u3, _, _, _, u7⟩ := unlock_frame inp (requestScan s)
    refine ⟨_, loop_of_dispatch fuel inp s _
      (by rw [hsp]; exact dispatch_skip fuel inp _ hd), ?_, ?_, ?_⟩
    · rw [u3, hcs]
    · rw [u7, r6]
    · rw [u2, r10]

theorem run_scanning (fuel : Nat) :
    ∀ (negs : List LoopInput) (s : State), s.currentState = AppState.SCANNING →
      (∀ inp ∈ negs, inp.scanComplete < 0) →
      ∃ sk, runLoop fuel negs s = some sk ∧ sk.currentState = AppState.SCANNING ∧
        scanRequests sk.trace + (if sk.scanStarted = false then 1 else 0) =
          scanRequests s.trace + (if s.scanStarted = false then 1 else 0) ∧
        (negs ≠ [] → sk.scanStarted = true) := by
  intro negs
  induction negs with
  | nil => intro s h _; exact ⟨s, rfl, h, rfl, fun h => absurd rfl h⟩
  | cons inp rest ih =>
    intro s h hall
    obtain ⟨s1, h1, h2, h3, h4⟩ :=
      loop_scanning_neg fuel inp s h (hall inp (List.mem_cons_self _ _))
    obtain ⟨sk, k1, k2, k3, k4⟩ := ih s1 h2 (fun j hj => hall j (List.mem_cons_of_mem _ hj))
    refine ⟨sk, ?_, k2, ?_, ?_⟩
    · rw [runLoop, h1]
      exact k1
    · rw [k3, h4, h3]
      simp
    · intro _
      by_cases hr : rest = []
      · subst hr
        rw [runLoop] at k1
        cases k1
        exact h3
      · exact k4 hr

theorem runLoop_append (fuel : Nat) (b : List LoopInput) :
    ∀ (a : List LoopInput) (s sa : State), runLoop fuel a s = some sa →
      runLoop fuel (a ++ b) s = runLoop fuel b sa := by
  intro a
  induction a with
  | nil =>
    intro s sa h
    rw [runLoop] at h
    cases h
    rfl
  | cons inp rest ih =>
    intro s sa h
    obtain ⟨s1, h1, h2⟩ := runLoop_cons fuel inp rest s sa h
    rw [List.cons_append, runLoop, h1]
    exact ih s1 sa h2

theorem handleListTouch_state (ssid : Nat → String) (x y : Int) (s : State) :
    (handleListTouch ssid x y s).currentState = s.currentState ∨
    (handleListTouch ssid x y s).currentState = AppState.KEYPAD := by
  unfold handleListTouch
  rcases listLoop_cases ssid x y s 5 0 with h | ⟨i, _, _, _, h⟩
  · rw [h]; exact Or.inl rfl
  · rw [h]; exact Or.inr rfl

/-- Claim C8: from `currentState = SCANNING` with `scanStarted = false`, over `k` iterations
that read a negative scan status followed by one that reads `n ≥ 0`, `WiFi.scanNetworks`
is called exactly once, in the first iteration; the state stays Scanning through the `k`
negative readings; and on the non-negative reading the scan block sets `networkCount = n`,
`currentState = LIST` and `scanStarted = false` and draws `min(n, 5)` rows (none for
`n = 0`).  The run returns for every input; at its end `networkCount` and `scanStarted`
are as set, and `currentState` is `LIST` unless the touch block of that same iteration
selected a row. -/
theorem scan_requested_once (fuel : Nat) (s : State) (negs : List LoopInput)
    (last : LoopInput)
    (hs : s.currentState = AppState.SCANNING) (hstart : s.scanStarted = false)
    (hneg : ∀ inp ∈ negs, inp.scanComplete < 0) (hlast : 0 ≤ last.scanComplete) :
    (∀ n, 1 ≤ n → n ≤ negs.length →
      ∃ sn, runLoop fuel (negs.take n) s = some sn ∧
        sn.currentState = AppState.SCANNING ∧
        scanRequests sn.trace = scanRequests s.trace + 1) ∧
    ∃ sk s', runLoop fuel negs s = some sk ∧ sk.currentState = AppState.SCANNING ∧
      (scanPhase last sk).networkCount = last.scanComplete ∧
      (scanPhase last sk).currentState = AppState.LIST ∧
      (scanPhase last sk).scanStarted = false ∧
      scanRequests (scanPhase last sk).trace = scanRequests s.trace + 1 ∧
      rects (scanPhase last sk).trace =
        rects sk.trace ++ (List.range (min last.scanComplete 5).toNat).map
          (fun i : Nat => ((5 : Int), 35 + 40 * (i : Int), (310 : Int), (35 : Int))) ∧
      runLoop fuel (negs ++ [last]) s = some s' ∧
      scanRequests s'.trace = scanRequests s.trace + 1 ∧
      s'.networkCount = last.scanComplete ∧ s'.scanStarted = false ∧
      (s'.currentState = AppState.LIST ∨ s'.currentState = AppState.KEYPAD) ∧
      (last.touched1 = false → s'.currentState = AppState.LIST) := by
  constructor
  · intro n hn1 hn2
    obtain ⟨sn, k1, k2, k3, k4⟩ :=
      run_scanning fuel (negs.take n) s hs (fun j hj => hneg j (List.mem_of_mem_take hj))
    have hne : negs.take n ≠ [] := by
      intro h
      have := congrArg List.length h
      rw [List.length_take, List.length_nil] at this
      omega
    refine ⟨sn, k1, k2, ?_⟩
    rw [k4 hne, hstart] at k3
    simpa using k3
  · obtain ⟨sk, k1, k2, k3, _⟩ := run_scanning fuel negs s hs hneg
    rw [hstart] at k3
    obtain ⟨_, _, _, _, _, _, _, _, r9, r10⟩ := requestScan_frame sk
    have hsp := scanPhase_done last sk k2 hlast
    have hreq : scanRequests (scanPhase last sk).trace = scanRequests s.trace + 1 := by
      rw [(scanPhase_scanning last sk k2).2, k3]
      simp
    have hlist : (scanPhase last sk).currentState = AppState.LIST := by rw [hsp]
    have hcount : (scanPhase last sk).networkCount = last.scanComplete := by
      rw [hsp]; rfl
    have hst : (scanPhase last sk).scanStarted = false := by rw [hsp]
    obtain ⟨sd, hd⟩ := dispatch_not_keypad fuel last (scanPhase last sk) (by rw [hlist]; simp)
    obtain ⟨_, _, d3, d4⟩ := dispatch_frame fuel last _ sd hd
    obtain ⟨_, u2, u3, _, _, u6, u7⟩ := unlock_frame last sd
    have hsd : sd.scanStarted = false ∧
        (sd.currentState = AppState.LIST ∨ sd.currentState = AppState.KEYPAD) ∧
        (last.touched1 = false → sd.currentState = AppState.LIST) := by
      by_cases hdd : last.touched1 = true ∧ (scanPhase last sk).touchLocked = false
      · rw [dispatch_list fuel last _ hdd hlist] at hd
        cases hd
        obtain ⟨l1, _, _, _, l5, _⟩ := latch_frame (scanPhase last sk)
        obtain ⟨_, _, _, _, _, g6⟩ :=
          handleListTouch_frame last.ssid (touchPoint last).1 (touchPoint last).2
            (latch (scanPhase last sk))
        refine ⟨by rw [g6, l5, hst], ?_, ?_⟩
        · rcases handleListTouch_state last.ssid (touchPoint last).1 (touchPoint last).2
            (latch (scanPhase last sk)) with h | h
          · exact Or.inl (by rw [h, l1, hlist])
          · exact Or.inr h
        · intro hf
          rw [hf] at hdd
          exact absurd hdd.1 (by simp)
      · rw [dispatch_skip fuel last _ hdd] at hd
        cases hd
        exact ⟨hst, Or.inl hlist, fun _ => hlist⟩
    refine ⟨sk, unlock last sd, k1, k2, hcount, hlist, hst, hreq, ?_, ?_, ?_, ?_, ?_, ?_, ?_⟩
    · rw [hsp]
      have := drawWifiList_rects last.ssid
        { requestScan sk with networkCount := last.scanComplete }
      simp only at this
      rw [r9] at this
      exact this
    · rw [runLoop_append fuel [last] negs s sk k1, runLoop, loop_of_dispatch fuel last sk sd hd]
      rfl
    · rw [u2, d3, hreq]
    · rw [u6, d4, hcount]
    · rw [u7, hsd.1]
    · rw [u3]; exact hsd.2.1
    · rw [u3]; exact hsd.2.2

theorem scan_requested_once_witness :
    (∀ n, 1 ≤ n → n ≤ [idle, idle].length →
      ∃ sn, runLoop 0 ([idle, idle].take n) initial = some sn ∧
        sn.currentState = AppState.SCANNING ∧
        scanRequests sn.trace = scanRequests initial.trace + 1) ∧
    ∃ sk s', runLoop 0 [idle, idle] initial = some sk ∧
      sk.currentState = AppState.SCANNING ∧
      (scanPhase { idle with scanComplete := 2, ssid := homeCafe } sk).networkCount = 2 ∧
      (scanPhase { idle with scanComplete := 2, ssid := homeCafe } sk).currentState =
        AppState.LIST ∧
      (scanPhase { idle with scanComplete := 2, ssid := homeCafe } sk).scanStarted = false ∧
      scanRequests (scanPhase { idle with scanComplete := 2, ssid := homeCafe } sk).trace =
        scanRequests initial.trace + 1 ∧
      rects (scanPhase { idle with scanComplete := 2, ssid := homeCafe } sk).trace =
        rects sk.trace ++ (List.range (min (2 : Int) 5).toNat).map
          (fun i : Nat => ((5 : Int), 35 + 40 * (i : Int), (310 : Int), (35 : Int))) ∧
      runLoop 0 ([idle, idle] ++ [{ idle with scanComplete := 2, ssid := homeCafe }]) initial =
        some s' ∧
      scanRequests s'.trace = scanRequests initial.trace + 1 ∧
      s'.networkCount = 2 ∧ s'.scanStarted = false ∧
      (s'.currentState = AppState.LIST ∨ s'.currentState = AppState.KEYPAD) ∧
      (idle.touched1 = false → s'.currentState = AppState.LIST) :=
  scan_requested_once 0 initial [idle, idle] { idle with scanComplete := 2, ssid := homeCafe }
    rfl rfl
    (by
      intro j hj
      simp only [List.mem_cons, List.mem_singleton, List.not_mem_nil, or_false] at hj
      rcases hj with rfl | rfl <;> decide)
    (by decide)

/-! ## Touches outside all rectangles -/

/-- Claim C10: a touch that is not strictly inside any of the `min(networkCount, 5)` row
rectangles leaves the state as it is in `handleListTouch`; a touch that is not strictly
inside any of the twelve key rectangles leaves the state as it is in `handleKeypadTouch`,
so no connection attempt starts; and a touch dispatched while `currentState = SCANNING`
calls neither handler: the dispatch branch only sets the latch and reads the point. -/
theorem outside_touches_ignored (fuel : Nat) (env : ConnEnv) (ssid : Nat → String)
    (inp : LoopInput) (s : State) (x y : Int) :
    ((∀ i : Nat, (i : Int) < min s.networkCount 5 →
        ¬ (5 < x ∧ x < 315 ∧ 35 + 40 * (i : Int) < y ∧ y < 70 + 40 * (i : Int))) →
      handleListTouch ssid x y s = s) ∧
    ((∀ r c : Nat, r < 4 → c < 3 →
        ¬ (20 + 95 * (c : Int) < x ∧ x < 105 + 95 * (c : Int) ∧
          65 + 42 * (r : Int) < y ∧ y < 103 + 42 * (r : Int))) →
      handleKeypadTouch fuel env x y s = some s) ∧
    (s.currentState = AppState.SCANNING → inp.touched1 = true → s.touchLocked = false →
      dispatch fuel inp s = some (latch s) ∧
      (latch s).currentState = s.currentState ∧
      (latch s).selectedSSID = s.selectedSSID ∧
      (latch s).passwordBuffer = s.passwordBuffer ∧
      (latch s).trace = s.trace ++ [Event.getPoint]) := by
  refine ⟨?_, ?_, ?_⟩
  · intro h
    apply listLoop_miss
    intro i h1 h2 hin
    unfold inRow at hin
    exact h i (by omega) (by omega)
  · intro h
    apply handleKeypadTouch_miss
    intro r c hr hc hin
    unfold inKey at hin
    exact h r c hr hc (by omega)
  · intro hs ht hl
    exact ⟨dispatch_scanning fuel inp s ⟨ht, hl⟩ hs, rfl, rfl, rfl, rfl⟩

theorem outside_touches_ignored_witness :
    handleListTouch homeCafe 5 50 { initial with networkCount := 2 } =
      { initial with networkCount := 2 } ∧
    handleListTouch homeCafe 100 72 { initial with networkCount := 2 } =
      { initial with networkCount := 2 } ∧
    handleKeypadTouch 1001 liveEnv 110 84 cafe123 = some cafe123 ∧
    dispatch 1001 (press 1076 2483 liveEnv) initial = some (latch initial) :=
  ⟨(outside_touches_ignored 0 liveEnv homeCafe idle { initial with networkCount := 2 } 5 50).1
      (by intro i _; omega),
    (outside_touches_ignored 0 liveEnv homeCafe idle { initial with networkCount := 2 }
      100 72).1 (by intro i _; omega),
    (outside_touches_ignored 1001 liveEnv homeCafe idle cafe123 110 84).2.1
      (by intro r c _ _; omega),
    ((outside_touches_ignored 1001 liveEnv homeCafe (press 1076 2483 liveEnv) initial 0 0).2.2
      rfl rfl rfl).1⟩

/-! ## After a successful connection -/

theorem missesKeys_sound (x y : Int) (h : missesKeys x y = true) :
    ∀ r c : Nat, r < 4 → c < 3 → ¬ inKey x y r c := by
  intro r c hr hc hin
  unfold missesKeys at h
  rw [List.all_eq_true] at h
  have := h (r, c) ((mem_cells r c).mpr ⟨hr, hc⟩)
  simp [hin] at this

theorem quietRun_sound (fuel : Nat) :
    ∀ (inputs : List LoopInput) (s : State), quietRun fuel inputs s = true →
      ∀ pre cur post sa, inputs = pre ++ cur :: post → runLoop fuel pre s = some sa →
        cur.touched1 = true → sa.touchLocked = false →
        ∀ r c : Nat, r < 4 → c < 3 →
          ¬ inKey (map cur.rawX 421 3798 0 320) (map cur.rawY 3626 362 0 240) r c := by
  intro inputs
  induction inputs with
  | nil =>
    intro s _ pre cur post sa hsplit
    simp at hsplit
  | cons inp rest ih =>
    intro s hq pre cur post sa hsplit hrun ht hl
    rw [quietRun, Bool.and_eq_true] at hq
    cases pre with
    | nil =>
      rw [List.nil_append, List.cons.injEq] at hsplit
      obtain ⟨rfl, _⟩ := hsplit
      rw [runLoop] at hrun
      cases hrun
      have h1 := hq.1
      rw [ht, hl] at h1
      exact missesKeys_sound _ _ (by simpa using h1)
    | cons a pre' =>
      rw [List.cons_append, List.cons.injEq] at hsplit
      obtain ⟨rfl, hrest⟩ := hsplit
      obtain ⟨s1, h1, h2⟩ := runLoop_cons fuel inp pre' s sa hrun
      have h3 := hq.2
      rw [h1] at h3
      exact ih s1 h3 pre' cur post sa hrest h2 ht hl

theorem loop_keypad_quiet (fuel : Nat) (inp : LoopInput) (s : State)
    (hk : s.currentState = AppState.KEYPAD)
    (hq : inp.touched1 = true → s.touchLocked = false →
      ∀ r c : Nat, r < 4 → c < 3 →
        ¬ inKey (map inp.rawX 421 3798 0 320) (map inp.rawY 3626 362 0 240) r c) :
    ∃ s', loop fuel inp s = some s' ∧ s'.currentState = AppState.KEYPAD ∧
      s'.selectedSSID = s.selectedSSID ∧ s'.passwordBuffer = s.passwordBuffer ∧
      drawn s'.trace = drawn s.trace ∧
      connectAttempts s'.trace = connectAttempts s.trace ∧
      scanRequests s'.trace = scanRequests s.trace := by
  have hsp : scanPhase inp s = s := scanPhase_other inp s (by rw [hk]; simp)
  by_cases hd : inp.touched1 = true ∧ s.touchLocked = false
  · have hmiss : ∀ r c : Nat, r < 4 → c < 3 →
        ¬ inKey (touchPoint inp).1 (touchPoint inp).2 r c := hq hd.1 hd.2
    obtain ⟨l1, l2, l3, _, _, _, _, l8, l9, l10⟩ := latch_frame s
    obtain ⟨_, u2, u3, u4, u5, _, _⟩ := unlock_frame inp (latch s)
    refine ⟨unlock inp (latch s), ?_, ?_, ?_, ?_, ?_, ?_, ?_⟩
    · apply loop_of_dispatch
      rw [hsp, dispatch_keypad fuel inp s hd hk]
      exact handleKeypadTouch_miss fuel inp.conn _ _ _ hmiss
    · rw [u3, l1, hk]
    · rw [u4, l2]
    · rw [u5, l3]
    · rw [u2, l10]
    · rw [u2, l9]
    · rw [u2, l8]
  · obtain ⟨_, u2, u3, u4, u5, _, _⟩ := unlock_frame inp s
    refine ⟨unlock inp s, ?_, ?_, ?_, ?_, ?_, ?_, ?_⟩
    · apply loop_of_dispatch
      rw [hsp]
      exact dispatch_skip fuel inp s hd
    · rw [u3, hk]
    · rw [u4]
    · rw [u5]
    · rw [u2]
    · rw [u2]
    · rw [u2]

theorem run_keypad_quiet (fuel : Nat) :
    ∀ (inputs : List LoopInput) (s : State), s.currentState = AppState.KEYPAD →
      (∀ pre cur post sa, inputs = pre ++ cur :: post → runLoop fuel pre s = some sa →
        cur.touched1 = true → sa.touchLocked = false →
        ∀ r c : Nat, r < 4 → c < 3 →
          ¬ inKey (map cur.rawX 421 3798 0 320) (map cur.rawY 3626 362 0 240) r c) →
      ∃ s', runLoop fuel inputs s = some s' ∧ s'.currentState = AppState.KEYPAD ∧
        s'.selectedSSID = s.selectedSSID ∧ s'.passwordBuffer = s.passwordBuffer ∧
        drawn s'.trace = drawn s.trace ∧
        connectAttempts s'.trace = connectAttempts s.trace ∧
        scanRequests s'.trace = scanRequests s.trace := by
  intro inputs
  induction inputs with
  | nil => intro s hk _; exact ⟨s, rfl, hk, rfl, rfl, rfl, rfl, rfl⟩
  | cons inp rest ih =>
    intro s hk hq
    obtain ⟨s1, a1, a2, a3, a4, a5, a6, a7⟩ :=
      loop_keypad_quiet fuel inp s hk (hq [] inp rest s rfl rfl)
    have hq1 : ∀ pre cur post sa, rest = pre ++ cur :: post → runLoop fuel pre s1 = some sa →
        cur.touched1 = true → sa.touchLocked = false →
        ∀ r c : Nat, r < 4 → c < 3 →
          ¬ inKey (map cur.rawX 421 3798 0 320) (map cur.rawY 3626 362 0 240) r c := by
      intro pre cur post sa hsplit hrun
      apply hq (inp :: pre) cur post sa (by rw [hsplit]; rfl)
      rw [runLoop, a1]
      exact hrun
    obtain ⟨s2, b1, b2, b3, b4, b5, b6, b7⟩ := ih s1 a2 hq1
    refine ⟨s2, ?_, b2, b3.trans a3, b4.trans a4, b5.trans a5, b6.trans a6, b7.trans a7⟩
    rw [runLoop, a1]
    exact b1

/-- Claim C6 fails on the code: after the attempt ("Cafe", "123") has succeeded the state
is still Keypad and `loop` keeps dispatching touches.  A tap on the key "1" appends to
the buffer and redraws the password field over the success screen; a tap on "OK" starts
a further connection attempt; and when that attempt fails the next iteration issues a
scan request. -/
theorem success_screen_not_halted :
    connectToWifi 1001 liveEnv "Cafe" "123" cafe123 = some afterSuccess ∧
    storeWrites afterSuccess.trace = [("ssid", "Cafe"), ("pass", "123")] ∧
    afterSuccess.currentState = AppState.KEYPAD ∧
    touchPoint (press 1076 2483 liveEnv) = (62, 84) ∧
    (loop 1001 (press 1076 2483 liveEnv) afterSuccess).map (fun s => s.passwordBuffer) =
      some "1231" ∧
    (loop 1001 (press 1076 2483 liveEnv) afterSuccess).map (fun s => drawn s.trace) =
      some (drawn afterSuccess.trace ++ [Event.fillRect 12 27 296 26 Color.BLACK,
        Event.drawCentreString "1231" 160 32 2]) ∧
    touchPoint (press 3081 770 liveEnv) = (252, 210) ∧
    (loop 1001 (press 3081 770 liveEnv) afterSuccess).map
      (fun s => connectAttempts s.trace) = some [("Cafe", "123"), ("Cafe", "123")] ∧
    (runLoop 1001 [press 3081 770 lostEnv, idle] afterSuccess).map
      (fun s => (s.currentState, scanRequests s.trace)) = some (AppState.SCANNING, 1) := by
  decide

/-- Claim C6, amended: a successful connection attempt leaves `currentState` (Keypad),
`selectedSSID` and `passwordBuffer` as they were; and over every later sequence of
iterations of `loop` in which no dispatched touch (contact read while the latch is open
in the state that iteration starts from) lies strictly inside a key rectangle they stay
unchanged, nothing is drawn, and no connection attempt or scan is started.  Contact read
while the latch is set, such as the finger still resting on "OK", is not dispatched and
is not restricted.  (A dispatched touch inside a key rectangle is still handled by
`handleKeypadTouch`.) -/
theorem success_screen_quiet (fuel : Nat) (env : ConnEnv) (s0 s1 : State) (fuel2 : Nat)
    (inputs : List LoopInput)
    (hsucc : Succeeded fuel env s0 s1)
    (hquiet : ∀ pre cur post sa, inputs = pre ++ cur :: post →
      runLoop fuel2 pre s1 = some sa → cur.touched1 = true → sa.touchLocked = false →
      ∀ r c : Nat, r < 4 → c < 3 →
        ¬ inKey (map cur.rawX 421 3798 0 320) (map cur.rawY 3626 362 0 240) r c) :
    s1.currentState = AppState.KEYPAD ∧ s1.selectedSSID = s0.selectedSSID ∧
    s1.passwordBuffer = s0.passwordBuffer ∧
    ∃ s2, runLoop fuel2 inputs s1 = some s2 ∧ s2.currentState = AppState.KEYPAD ∧
      s2.selectedSSID = s1.selectedSSID ∧ s2.passwordBuffer = s1.passwordBuffer ∧
      drawn s2.trace = drawn s1.trace ∧
      connectAttempts s2.trace = connectAttempts s1.trace ∧
      scanRequests s2.trace = scanRequests s1.trace := by
  obtain ⟨hk, i, now, hw, hr, hc⟩ := hsucc
  rw [connectToWifi_eq fuel env _ _ s0 i now hw, if_pos hr] at hc
  cases hc
  have hk1 : (connectedState s0.selectedSSID s0.passwordBuffer s0).currentState =
      AppState.KEYPAD := hk
  exact ⟨hk1, rfl, rfl, run_keypad_quiet fuel2 inputs _ hk1 hquiet⟩

theorem success_screen_quiet_witness :
    heldSuccess.touchLocked = true ∧
    touchPoint (press 3081 770 lostEnv) = (252, 210) ∧ inKey 252 210 3 2 ∧
    heldSuccess.currentState = AppState.KEYPAD ∧
    heldSuccess.selectedSSID = "Cafe" ∧
    heldSuccess.passwordBuffer = "123" ∧
    ∃ s2, runLoop 0 [press 3081 770 lostEnv, press 3081 770 lostEnv, idle,
        press 1582 2483 lostEnv, idle] heldSuccess = some s2 ∧
      s2.currentState = AppState.KEYPAD ∧
      s2.selectedSSID = heldSuccess.selectedSSID ∧
      s2.passwordBuffer = heldSuccess.passwordBuffer ∧
      drawn s2.trace = drawn heldSuccess.trace ∧
      connectAttempts s2.trace = connectAttempts heldSuccess.trace ∧
      scanRequests s2.trace = scanRequests heldSuccess.trace :=
  have h := success_screen_quiet 1001 liveEnv { cafe123 with touchLocked := true }
    heldSuccess 0
    [press 3081 770 lostEnv, press 3081 770 lostEnv, idle, press 1582 2483 lostEnv, idle]
    ⟨rfl, 3, 35, by decide, by decide, by decide⟩
    (quietRun_sound 0 _ _ (by decide))
  ⟨by decide, by decide, by decide, h.1, h.2.1, h.2.2.1, h.2.2.2⟩

end Tft
